import Mathlib

/-!
Verification of the monorepo's 2D-nesting and toolpath/G-code core.

The Python sources embedded here are:
* `src/nester/nest.py` (class `DXFNester`): bottom-left-fill nesting with
  4-way rotation search over shapely polygons;
* `src/cutter_coder/src/operations/contouring.py` and `boring.py`: depth-staged
  cutting passes;
* `src/cutter_coder/src/toolpath_generator.py`: contour/tab/hole toolpaths and
  nearest-neighbour ordering;
* `src/cutter_coder/src/operations/tab_generator.py`: tab counting;
* `src/cutter_coder/src/postprocessors/mach3.py`: G-code emission;
* `src/cutter_coder/src/core/dxf_parser.py`: contour tracing and part/hole
  classification.

Python floats are modelled as exact rationals (`ℚ`).  Operations supplied by
external libraries (shapely's polygon predicates, numpy's `sqrt`/`cos`/`sin`/
`arccos`) are not part of this repository; they enter the embedding as
parameters: a `GeoKernel` bundling the shapely polygon operations together with
the metric laws shapely guarantees for them, and a `MathFns` record of the
numpy scalar functions.  All algorithmic control flow is taken verbatim from
the Python sources.
-/

set_option allowUnsafeReducibility true
attribute [semireducible] Rat.mul Rat.add Rat.sub Rat.div Rat.neg Rat.inv Rat.blt Nat.gcd

namespace Monorepo

/-- Python `math.floor` on an exact rational, computed from the reduced
numerator and denominator (kernel-evaluable). -/
def qfloor (q : ℚ) : ℤ := q.num / (q.den : ℤ)

/-- Python `math.ceil` / `np.ceil` on an exact rational. -/
def qceil (q : ℚ) : ℤ := -qfloor (-q)

/-- Python `int(... )` truncation toward zero on an exact rational. -/
def pyTrunc (q : ℚ) : ℤ := q.num.tdiv (q.den : ℤ)

/-- Python `round()` to the nearest integer (model: ties round up). -/
def qround (q : ℚ) : ℤ := qfloor (q + 1/2)

/-- Stable insertion into a sorted list: the new element goes after every
element `b` with `le b a`. -/
def insertOrdered {α : Type} (le : α → α → Bool) : List α → α → List α
  | [], a => [a]
  | b :: rest, a => if le b a then b :: insertOrdered le rest a else a :: b :: rest

/-- Python's stable `list.sort` with a boolean `le` comparison: elements are
inserted left to right, so equal elements keep their original order. -/
def stableSortBy {α : Type} (le : α → α → Bool) (l : List α) : List α :=
  l.foldl (insertOrdered le) []

/-- Bounding box as returned by shapely's `polygon.bounds`:
`(min_x, min_y, max_x, max_y)`. -/
structure Bounds where
  minX : ℚ
  minY : ℚ
  maxX : ℚ
  maxY : ℚ
  deriving Repr, DecidableEq

/-- The shapely polygon operations used by `nest.py`, together with the
metric laws shapely guarantees and that the nesting code relies on:
`translate` shifts the bounding box; `intersects` is symmetric; `distance`
is symmetric; and for a nonnegative margin `s`, a polygon misses the
outward `buffer` of another by `s` exactly when their distance exceeds `s`.
No law is assumed about `rotateP` (the nester re-reads the bounds of the
rotated polygon instead of predicting them). -/
structure GeoKernel (P : Type) where
  translateP : P → ℚ → ℚ → P
  rotateP : P → ℚ → ℚ × ℚ → P
  bufferP : P → ℚ → P
  intersectsP : P → P → Bool
  distP : P → P → ℚ
  boundsP : P → Bounds
  bounds_translate : ∀ p dx dy, boundsP (translateP p dx dy) =
    ⟨(boundsP p).minX + dx, (boundsP p).minY + dy,
     (boundsP p).maxX + dx, (boundsP p).maxY + dy⟩
  intersects_comm : ∀ a b, intersectsP a b = intersectsP b a
  dist_comm : ∀ a b, distP a b = distP b a
  intersects_buffer_dist : ∀ a b s, 0 ≤ s →
    (intersectsP a (bufferP b s) = false ↔ s < distP a b)

variable {P : Type}

/-- `numpy.arange(0, stop, step)` for a positive `step`: the values
`k * step` for `k = 0, 1, …` while `k * step < stop`. -/
def arangeQ (stop step : ℚ) : List ℚ :=
  (List.range (qceil (stop / step)).toNat).map (fun (k : ℕ) => (k : ℚ) * step)

/-- `DXFNester.normalize_polygon`: translate a polygon so that its
bounding box's bottom-left corner is at the origin. -/
def normalizePolygon (K : GeoKernel P) (p : P) : P :=
  K.translateP p (-(K.boundsP p).minX) (-(K.boundsP p).minY)

/-- A part as prepared by `DXFNester.nest_parts`: the normalized collision
polygon, the recorded rotation centroid, and the derived dimensions. -/
structure NestPart (P : Type) where
  polygon : P
  centroid : ℚ × ℚ
  width : ℚ
  height : ℚ
  area : ℚ
  deriving DecidableEq

/-- A placement record produced by `DXFNester.bottom_left_fill`. -/
structure Placed (P : Type) where
  polygon : P
  x : ℚ
  y : ℚ
  rotation : ℚ
  deriving DecidableEq

/-- `DXFNester.find_position_for_polygon`: scan bottom-left grid positions
(y outer, x inner, adaptive step) and return the first position whose
candidate stays on the sheet and misses every occupied polygon buffered
outward by `spacing`. -/
def findPositionForPolygon (K : GeoKernel P) (sheetW sheetH spacing : ℚ)
    (polygon : P) (partWidth partHeight : ℚ) (occupied : List P) :
    Option (ℚ × ℚ) :=
  let stepSize := max 1 (min partWidth partHeight / 10)
  (arangeQ (sheetH - partHeight + 1) stepSize).findSome? fun y =>
    (arangeQ (sheetW - partWidth + 1) stepSize).findSome? fun x =>
      let candidate := K.translateP polygon x y
      let b := K.boundsP candidate
      if b.maxX > sheetW ∨ b.maxY > sheetH then none
      else if occupied.any (fun occ => K.intersectsP candidate (K.bufferP occ spacing)) then none
      else some (x, y)

/-- The four discrete rotation angles tried by the nester. -/
def rotationAngles : List ℚ := [0, 90, 180, 270]

/-- One rotation candidate of `DXFNester.find_best_position_with_rotation`:
rotate about the recorded centroid, re-normalize, reject if the rotated
bounding box cannot fit the sheet with spacing, otherwise search a position. -/
def rotationCandidate (K : GeoKernel P) (sheetW sheetH spacing : ℚ)
    (part : NestPart P) (occupied : List P) (angle : ℚ) :
    Option (ℚ × ℚ × ℚ × P) :=
  let rotated := normalizePolygon K (K.rotateP part.polygon angle part.centroid)
  let b := K.boundsP rotated
  let rotatedWidth := b.maxX - b.minX
  let rotatedHeight := b.maxY - b.minY
  if rotatedWidth + spacing > sheetW ∨ rotatedHeight + spacing > sheetH then none
  else
    match findPositionForPolygon K sheetW sheetH spacing rotated rotatedWidth rotatedHeight occupied with
    | none => none
    | some (x, y) => some (x, y, angle, rotated)

/-- The sheet-area score `(x + rotated_width) * (y + rotated_height)` that
`find_best_position_with_rotation` minimizes over its candidates. -/
def areaUsed (K : GeoKernel P) (c : ℚ × ℚ × ℚ × P) : ℚ :=
  let b := K.boundsP c.2.2.2
  (c.1 + (b.maxX - b.minX)) * (c.2.1 + (b.maxY - b.minY))

/-- One step of the accumulator loop of `find_best_position_with_rotation`:
keep the best candidate so far, replacing it only on a strictly smaller
score (so earlier candidates win ties). -/
def chooseBestStep {α γ : Type} (score : γ → ℚ) (f : α → Option γ)
    (best : Option γ) (a : α) : Option γ :=
  match f a with
  | none => best
  | some c =>
    match best with
    | none => some c
    | some b => if score c < score b then some c else some b

/-- The accumulator loop of `find_best_position_with_rotation`, starting
from "no candidate". -/
def chooseBest {α γ : Type} (score : γ → ℚ) (f : α → Option γ) (l : List α) : Option γ :=
  l.foldl (chooseBestStep score f) none

/-- `DXFNester.find_best_position_with_rotation`: among the four rotation
angles, keep the candidate with the strictly smallest `areaUsed` score
(earlier angles win ties). -/
def findBestPositionWithRotation (K : GeoKernel P) (sheetW sheetH spacing : ℚ)
    (part : NestPart P) (occupied : List P) : Option (ℚ × ℚ × ℚ × P) :=
  chooseBest (areaUsed K) (rotationCandidate K sheetW sheetH spacing part occupied)
    rotationAngles

/-- Loop body accumulator of `DXFNester.bottom_left_fill`. -/
def bottomLeftFillGo (K : GeoKernel P) (sheetW sheetH spacing : ℚ) :
    List (NestPart P) → List (Placed P) → List (NestPart P) → List P →
    List (Placed P) × List (NestPart P)
  | [], placed, remaining, _ => (placed, remaining)
  | part :: rest, placed, remaining, occupied =>
    match findBestPositionWithRotation K sheetW sheetH spacing part occupied with
    | some (x, y, rotation, rotatedPolygon) =>
      let placedPolygon := K.translateP rotatedPolygon x y
      bottomLeftFillGo K sheetW sheetH spacing rest
        (placed ++ [⟨placedPolygon, x, y, rotation⟩]) remaining
        (occupied ++ [placedPolygon])
    | none => bottomLeftFillGo K sheetW sheetH spacing rest placed (remaining ++ [part]) occupied

/-- `DXFNester.bottom_left_fill`: place each part in order; parts with no
valid rotation/position go to the remaining (unfittable) list. -/
def bottomLeftFill (K : GeoKernel P) (sheetW sheetH spacing : ℚ)
    (parts : List (NestPart P)) : List (Placed P) × List (NestPart P) :=
  bottomLeftFillGo K sheetW sheetH spacing parts [] [] []

/-- The separation property the nester establishes between two placed
collision polygons: the first misses the second buffered outward by the
spacing, and their kernel distance strictly exceeds the spacing. -/
def Separated (K : GeoKernel P) (spacing : ℚ) (a b : P) : Prop :=
  K.intersectsP a (K.bufferP b spacing) = false ∧ spacing < K.distP a b

/-- The in-sheet property for a placed polygon: its bounding box lies
inside `[0, sheetW] × [0, sheetH]`. -/
def WithinSheet (K : GeoKernel P) (sheetW sheetH : ℚ) (p : P) : Prop :=
  0 ≤ (K.boundsP p).minX ∧ (K.boundsP p).maxX ≤ sheetW ∧
  0 ≤ (K.boundsP p).minY ∧ (K.boundsP p).maxY ≤ sheetH

/-! ### A concrete geometry kernel: axis-aligned boxes with the L∞ metric

Used to exercise the nesting theorems on concrete inputs.  Boxes are closed
under translation, buffering and quarter-turn rotation, and the Chebyshev
distance satisfies the kernel's buffer/distance law exactly. -/

/-- An axis-aligned closed box `[bMinX, bMaxX] × [bMinY, bMaxY]`. -/
structure Box where
  bMinX : ℚ
  bMinY : ℚ
  bMaxX : ℚ
  bMaxY : ℚ
  deriving Repr, DecidableEq

def boxTranslate (b : Box) (dx dy : ℚ) : Box :=
  ⟨b.bMinX + dx, b.bMinY + dy, b.bMaxX + dx, b.bMaxY + dy⟩

/-- Rotate a box by a quarter-turn multiple about a centre; other angles
leave the box unchanged (the nester only uses 0/90/180/270). -/
def boxRotate (b : Box) (angle : ℚ) (c : ℚ × ℚ) : Box :=
  if angle = 90 then
    ⟨c.1 - (b.bMaxY - c.2), c.2 + (b.bMinX - c.1), c.1 - (b.bMinY - c.2), c.2 + (b.bMaxX - c.1)⟩
  else if angle = 180 then
    ⟨2 * c.1 - b.bMaxX, 2 * c.2 - b.bMaxY, 2 * c.1 - b.bMinX, 2 * c.2 - b.bMinY⟩
  else if angle = 270 then
    ⟨c.1 + (b.bMinY - c.2), c.2 - (b.bMaxX - c.1), c.1 + (b.bMaxY - c.2), c.2 - (b.bMinX - c.1)⟩
  else b

def boxBuffer (b : Box) (s : ℚ) : Box :=
  ⟨b.bMinX - s, b.bMinY - s, b.bMaxX + s, b.bMaxY + s⟩

def boxIntersects (a b : Box) : Bool :=
  decide (a.bMinX ≤ b.bMaxX ∧ b.bMinX ≤ a.bMaxX ∧ a.bMinY ≤ b.bMaxY ∧ b.bMinY ≤ a.bMaxY)

def boxGapX (a b : Box) : ℚ := max (b.bMinX - a.bMaxX) (a.bMinX - b.bMaxX)

def boxGapY (a b : Box) : ℚ := max (b.bMinY - a.bMaxY) (a.bMinY - b.bMaxY)

/-- Chebyshev (L∞) distance between two boxes. -/
def boxDist (a b : Box) : ℚ := max 0 (max (boxGapX a b) (boxGapY a b))

def boxBounds (b : Box) : Bounds := ⟨b.bMinX, b.bMinY, b.bMaxX, b.bMaxY⟩

/-- Axis-aligned boxes with the L∞ metric satisfy all the kernel laws. -/
def boxKernel : GeoKernel Box where
  translateP := boxTranslate
  rotateP := boxRotate
  bufferP := boxBuffer
  intersectsP := boxIntersects
  distP := boxDist
  boundsP := boxBounds
  bounds_translate := by intro p dx dy; rfl
  intersects_comm := by
    intro a b
    simp only [boxIntersects, decide_eq_decide]
    constructor <;> (rintro ⟨h1, h2, h3, h4⟩; exact ⟨h2, h1, h4, h3⟩)
  dist_comm := by
    intro a b
    simp only [boxDist, boxGapX, boxGapY]
    rw [max_comm (b.bMinX - a.bMaxX), max_comm (b.bMinY - a.bMaxY)]
  intersects_buffer_dist := by
    intro a b s hs
    simp only [boxIntersects, boxBuffer, boxDist, boxGapX, boxGapY,
      decide_eq_false_iff_not, not_and_or, not_le, lt_max_iff]
    constructor
    · rintro (h | h | h | h)
      · right; left; right; linarith
      · right; left; left; linarith
      · right; right; right; linarith
      · right; right; left; linarith
    · rintro (h | (h | h) | (h | h))
      · linarith
      · right; left; linarith
      · left; linarith
      · right; right; right; linarith
      · right; right; left; linarith

/-- The 100×100 mm square collision box of the spec's scenario. -/
def squareBox : Box := ⟨0, 0, 100, 100⟩

/-- The 100×100 mm square part of the spec's scenario (centroid (50,50)). -/
def squarePart : NestPart Box := ⟨squareBox, (50, 50), 100, 100, 10000⟩

/-- A 10×10 part used in the C7 counterexample. -/
def smallSquarePart : NestPart Box := ⟨⟨0, 0, 10, 10⟩, (5, 5), 10, 10, 100⟩

/-- An already-occupied strip `[0,8] × [0,3]` used in the C7 counterexample. -/
def stripOcc : Box := ⟨0, 0, 8, 3⟩

/-- Follows the spec's words for C7 ("among all valid (rotation, position)
candidate pairs on the position-search grid"): the rotation is one of the
four angles and passes the sheet pre-check, the position lies on the scan
grid, the translated polygon stays on the sheet, and it misses every
occupied polygon buffered by the spacing. -/
def specValidPair (K : GeoKernel P) (sheetW sheetH spacing : ℚ)
    (part : NestPart P) (occupied : List P) (angle x y : ℚ) : Prop :=
  angle ∈ rotationAngles ∧
  (let rotated := normalizePolygon K (K.rotateP part.polygon angle part.centroid)
   let b := K.boundsP rotated
   let w := b.maxX - b.minX
   let hgt := b.maxY - b.minY
   ¬(w + spacing > sheetW ∨ hgt + spacing > sheetH) ∧
   x ∈ arangeQ (sheetW - w + 1) (max 1 (min w hgt / 10)) ∧
   y ∈ arangeQ (sheetH - hgt + 1) (max 1 (min w hgt / 10)) ∧
   ¬((K.boundsP (K.translateP rotated x y)).maxX > sheetW ∨
     (K.boundsP (K.translateP rotated x y)).maxY > sheetH) ∧
   ∀ q ∈ occupied,
     K.intersectsP (K.translateP rotated x y) (K.bufferP q spacing) = false)

/-! ### Depth staging (`contouring.py`, `boring.py`, `toolpath_generator.py`)

`ContouringOperation.generate_toolpath` and `BoringOperation.generate_toolpath`
both compute `num_passes = int(np.ceil(material_thickness / depth_per_pass))`
and then run `pass_depth = min(depth_per_pass, thickness - current);
current += pass_depth` for `num_passes` iterations.
`ToolpathGenerator._generate_contour_with_tabs` instead loops
`while current_depth < thickness: current_depth = min(current_depth +
step_down, thickness)`. -/

/-- `int(np.ceil(material_thickness / depth_per_pass))`. -/
def numDepthPasses (thickness depthPerPass : ℚ) : ℕ :=
  (qceil (thickness / depthPerPass)).toNat

/-- The cumulative cutting depth after each pass of the `for pass_num in
range(num_passes)` loop shared by `ContouringOperation.generate_toolpath`
and `BoringOperation.generate_toolpath`. -/
def contourPassDepthsGo (thickness depthPerPass : ℚ) : ℕ → ℚ → List ℚ
  | 0, _ => []
  | n + 1, cur =>
    let passDepth := min depthPerPass (thickness - cur)
    (cur + passDepth) :: contourPassDepthsGo thickness depthPerPass n (cur + passDepth)

def contourPassDepths (thickness depthPerPass : ℚ) : List ℚ :=
  contourPassDepthsGo thickness depthPerPass (numDepthPasses thickness depthPerPass) 0

/-- The cumulative cutting depth after each iteration of the
`while current_depth < thickness` step-down loop of
`ToolpathGenerator._generate_contour_with_tabs` (and
`_generate_pocket_toolpath`); the fuel counts the loop iterations, which is
adequate for positive thickness and step. -/
def stepdownDepthsGo (thickness stepDown : ℚ) : ℕ → ℚ → List ℚ
  | 0, _ => []
  | n + 1, cur =>
    if cur < thickness then
      min (cur + stepDown) thickness ::
        stepdownDepthsGo thickness stepDown n (min (cur + stepDown) thickness)
    else []

def stepdownDepths (thickness stepDown : ℚ) : List ℚ :=
  stepdownDepthsGo thickness stepDown (numDepthPasses thickness stepDown) 0

/-! ### Toolpath generation (`toolpath_generator.py`, `boring.py`, operations)

The `Geometry` and `Part` dataclasses come from `dxf_processor.py`, which is
imported by `toolpath_generator.py` but is not present in the repository
sources; they are modelled from the spec below.  numpy's scalar functions
(`sqrt`, `cos`, `sin`, `arccos`, `arctan2`, `radians`, `degrees`, `pi`) are
external; they enter as a `MathFns` record and every theorem about this
section holds for an arbitrary such record. -/

/-- The numpy scalar functions used by the toolpath code, as rational-valued
stand-ins for the float routines.  `piQ` stands for the float `np.pi`. -/
structure MathFns where
  sqrtQ : ℚ → ℚ
  arccosQ : ℚ → ℚ
  radiansQ : ℚ → ℚ
  degreesQ : ℚ → ℚ
  cosQ : ℚ → ℚ
  sinQ : ℚ → ℚ
  arctan2Q : ℚ → ℚ → ℚ
  piQ : ℚ

/-- All-zero stand-in used to evaluate closed counterexamples; the
counterexample conclusions are also proved for every `MathFns` record. -/
def mfZero : MathFns := ⟨fun _ => 0, fun _ => 0, fun _ => 0, fun _ => 0,
  fun _ => 0, fun _ => 0, fun _ _ => 0, 0⟩

/-- Modelled from the spec: §3's geometry segment (the `Geometry` dataclass
of the missing `dxf_processor.py`): `type ∈ {line, arc, circle}` with
2-D `start`/`end` points and, for arcs/circles, `center`, `radius` and
`start_angle`/`end_angle` in degrees. -/
inductive GKind
  | line
  | arc
  | circle
  deriving DecidableEq, Repr, Inhabited

/-- Modelled from the spec: one geometry segment.  The spec's data model
gives every segment start and end points, so `if geom.end:` in
`_calculate_bbox` is always truthy. -/
structure Geometry where
  gkind : GKind
  startPt : ℚ × ℚ
  endPt : ℚ × ℚ
  center : ℚ × ℚ
  radius : ℚ
  startAngle : ℚ
  endAngle : ℚ
  deriving DecidableEq, Repr, Inhabited

/-- Modelled from the spec: §3's Part — an outer contour plus hole
contours — as consumed by `ToolpathGenerator.generate_toolpaths`. -/
structure TPart where
  outer_contour : List Geometry
  holes : List (List Geometry)
  deriving DecidableEq, Repr, Inhabited

/-- `config.py` `TabConfig`. -/
structure TabCfg where
  enabled : Bool
  height : ℚ
  width : ℚ
  spacing : ℚ
  min_tabs_per_part : ℕ
  corner_exclusion_zone : ℚ
  corner_angle_threshold : ℚ
  deriving DecidableEq, Repr

/-- `config.py` `MaterialConfig` (the fields the toolpath code reads). -/
structure MaterialCfg where
  thickness : ℚ
  feed_rate : ℚ
  plunge_rate : ℚ
  step_down : ℚ
  deriving DecidableEq, Repr

/-- `config.py` `ToolConfig` (the field the toolpath code reads). -/
structure ToolCfg where
  diameter : ℚ
  deriving DecidableEq, Repr

/-- `config.py` `CuttingConfig` (the fields the toolpath code reads). -/
structure CuttingCfg where
  material : MaterialCfg
  tool : ToolCfg
  tabs : TabCfg
  safety_height : ℚ
  deriving DecidableEq, Repr

/-- `toolpath_generator.py` `Toolpath` dataclass. -/
structure Toolpath where
  ttype : String
  points : List (ℚ × ℚ × ℚ)
  feed_rate : ℚ
  plunge_rate : ℚ
  deriving DecidableEq, Repr, Inhabited

/-- `toolpath_generator.py` `Tab` dataclass. -/
structure TabRec where
  start_point : ℚ × ℚ
  end_point : ℚ × ℚ
  height : ℚ
  deriving DecidableEq, Repr

/-- Python float `%` (used on positive lengths): `a - b * floor(a / b)`. -/
def pyMod (a b : ℚ) : ℚ := a - b * (qfloor (a / b) : ℤ)

/-- `ToolpathGenerator._get_segment_length` (also the body of
`_calculate_contour_length`): line length by `np.sqrt`, arc length
`radius * np.radians(|end_angle - start_angle|)`, circle `2 π r`. -/
def getSegmentLength (mf : MathFns) (g : Geometry) : ℚ :=
  match g.gkind with
  | GKind.line =>
    mf.sqrtQ ((g.endPt.1 - g.startPt.1) ^ 2 + (g.endPt.2 - g.startPt.2) ^ 2)
  | GKind.arc => g.radius * mf.radiansQ (abs (g.endAngle - g.startAngle))
  | GKind.circle => 2 * mf.piQ * g.radius

/-- `ToolpathGenerator._calculate_contour_length`. -/
def calculateContourLength (mf : MathFns) (contour : List Geometry) : ℚ :=
  (contour.map (getSegmentLength mf)).sum

/-- `ToolpathGenerator._get_end_direction`. -/
def getEndDirection (mf : MathFns) (g : Geometry) : ℚ × ℚ :=
  match g.gkind with
  | GKind.line =>
    let dx := g.endPt.1 - g.startPt.1
    let dy := g.endPt.2 - g.startPt.2
    let len := mf.sqrtQ (dx ^ 2 + dy ^ 2)
    if 0 < len then (dx / len, dy / len) else (1, 0)
  | GKind.arc =>
    let a := mf.radiansQ g.endAngle
    (-mf.sinQ a, mf.cosQ a)
  | GKind.circle => (1, 0)

/-- `ToolpathGenerator._get_start_direction`. -/
def getStartDirection (mf : MathFns) (g : Geometry) : ℚ × ℚ :=
  match g.gkind with
  | GKind.line =>
    let dx := g.endPt.1 - g.startPt.1
    let dy := g.endPt.2 - g.startPt.2
    let len := mf.sqrtQ (dx ^ 2 + dy ^ 2)
    if 0 < len then (dx / len, dy / len) else (1, 0)
  | GKind.arc =>
    let a := mf.radiansQ g.startAngle
    (-mf.sinQ a, mf.cosQ a)
  | GKind.circle => (1, 0)

/-- `ToolpathGenerator._calculate_angle_change`: arccos of the clamped dot
product, negated on a right turn. -/
def calcAngleChange (mf : MathFns) (g1 g2 : Geometry) : ℚ :=
  let d1 := getEndDirection mf g1
  let d2 := getStartDirection mf g2
  let dot := max (-1) (min 1 (d1.1 * d2.1 + d1.2 * d2.2))
  let angle := mf.arccosQ dot
  let cross := d1.1 * d2.2 - d1.2 * d2.1
  if cross < 0 then -angle else angle

/-- `ToolpathGenerator._find_corners` loop body, keeping the running
distance along the contour. -/
def findCornersGo (mf : MathFns) (cfg : CuttingCfg) (contour : List Geometry) :
    List ℕ → ℚ → List ℚ
  | [], _ => []
  | i :: rest, cur =>
    let prev := contour.getD ((i + contour.length - 1) % contour.length) default
    let curr := contour.getD i default
    let angleChange := calcAngleChange mf prev curr
    let tail := findCornersGo mf cfg contour rest (cur + getSegmentLength mf curr)
    if mf.radiansQ cfg.tabs.corner_angle_threshold < abs angleChange then cur :: tail
    else tail

/-- `ToolpathGenerator._find_corners`. -/
def findCorners (mf : MathFns) (cfg : CuttingCfg) (contour : List Geometry) : List ℚ :=
  findCornersGo mf cfg contour (List.range contour.length) 0

/-- The three-way wrap-around distance used by `_is_valid_tab_position`
and `_adjust_position_away_from_corners`. -/
def wrapDist3 (d c total : ℚ) : ℚ :=
  min (abs (d - c)) (min (abs (d - c + total)) (abs (d - c - total)))

/-- `ToolpathGenerator._is_valid_tab_position`. -/
def isValidTabPosition (cfg : CuttingCfg) (distance : ℚ) (corners : List ℚ)
    (totalLength : ℚ) : Bool :=
  corners.all fun corner =>
    !(decide (wrapDist3 distance corner totalLength < cfg.tabs.corner_exclusion_zone))

/-- `ToolpathGenerator._adjust_position_away_from_corners`: the first
too-close corner (if any) pushes the position to whichever of
`corner ± exclusion_zone` (mod total length) moves it less. -/
def adjustAwayFromCorners (cfg : CuttingCfg) (position : ℚ) (corners : List ℚ)
    (totalLength : ℚ) : ℚ :=
  match corners.find? (fun corner =>
      decide (wrapDist3 position corner totalLength < cfg.tabs.corner_exclusion_zone)) with
  | none => position
  | some corner =>
    let option1 := pyMod (corner + cfg.tabs.corner_exclusion_zone) totalLength
    let option2 := pyMod (corner - cfg.tabs.corner_exclusion_zone) totalLength
    let dist1 := wrapDist3 position option1 totalLength
    let dist2 := wrapDist3 position option2 totalLength
    if dist1 < dist2 then option1 else option2

/-- `ToolpathGenerator._create_tab_on_segment`. -/
def createTabOnSegment (mf : MathFns) (g : Geometry) (distance tabWidth : ℚ) :
    (ℚ × ℚ) × (ℚ × ℚ) :=
  let halfWidth := tabWidth / 2
  match g.gkind with
  | GKind.line =>
    let totalLength := getSegmentLength mf g
    let t := distance / totalLength
    let centerX := g.startPt.1 + t * (g.endPt.1 - g.startPt.1)
    let centerY := g.startPt.2 + t * (g.endPt.2 - g.startPt.2)
    let dx := g.endPt.1 - g.startPt.1
    let dy := g.endPt.2 - g.startPt.2
    let len := mf.sqrtQ (dx ^ 2 + dy ^ 2)
    let dx' := dx / len
    let dy' := dy / len
    ((centerX - dx' * halfWidth, centerY - dy' * halfWidth),
     (centerX + dx' * halfWidth, centerY + dy' * halfWidth))
  | GKind.arc =>
    let angleOffset := distance / g.radius
    let centerAngle := mf.radiansQ g.startAngle + angleOffset
    let angleDelta := halfWidth / g.radius
    let sa := centerAngle - angleDelta
    let ea := centerAngle + angleDelta
    ((g.center.1 + g.radius * mf.cosQ sa, g.center.2 + g.radius * mf.sinQ sa),
     (g.center.1 + g.radius * mf.cosQ ea, g.center.2 + g.radius * mf.sinQ ea))
  | GKind.circle => (g.startPt, g.startPt)

/-- The two-way wrap-around distance used inside the greedy selection loop
of `_calculate_tab_positions` (line 185 of `toolpath_generator.py`). -/
def wrapDist2 (pos selPos total : ℚ) : ℚ :=
  min (abs (pos - selPos)) (total - abs (pos - selPos))

/-- The inner `for pos in candidate_positions` search of
`_calculate_tab_positions`: the unselected candidate with the strictly
largest minimum wrap-around distance to the already selected positions
(`best_min_dist` starts at 0; an empty selection gives `inf`, here `⊤`). -/
def bestTabPos (totalLength : ℚ) (candidates selected : List ℚ) : Option ℚ :=
  (candidates.foldl
    (fun (acc : Option ℚ × WithTop ℚ) pos =>
      if pos ∈ selected then acc
      else
        let minDist : WithTop ℚ :=
          (((selected.map (fun selPos => wrapDist2 pos selPos totalLength)).min?).map
            (fun q => (q : WithTop ℚ))).getD ⊤
        if acc.2 < minDist then (some pos, minDist) else acc)
    (none, (0 : WithTop ℚ))).1

/-- The `while len(selected_positions) < num_tabs` greedy loop of
`_calculate_tab_positions`; the fuel bounds the iterations (each one
appends a position or stops, so `numTabs` fuel is exact). -/
def selectTabPositions (totalLength : ℚ) (candidates : List ℚ) (numTabs : ℕ) :
    ℕ → List ℚ → List ℚ
  | 0, selected => selected
  | fuel + 1, selected =>
    if selected.length < numTabs then
      match bestTabPos totalLength candidates selected with
      | some p => selectTabPositions totalLength candidates numTabs fuel (selected ++ [p])
      | none => selected
    else selected

/-- `num_tabs = max(min_tabs_per_part, int(total_length / spacing))`
(`toolpath_generator.py` lines 150–153; note Python `int()` truncates,
it does not round up). -/
def tpgNumTabs (cfg : CuttingCfg) (totalLength : ℚ) : ℕ :=
  max cfg.tabs.min_tabs_per_part (pyTrunc (totalLength / cfg.tabs.spacing)).toNat

/-- `num_tabs = max(min_tabs, int(perimeter / max_distance) + 1)`
(`tab_generator.py` line 28, `TabGenerator.generate_tabs`). -/
def tabGenNumTabs (minTabs : ℕ) (perimeter maxDistance : ℚ) : ℕ :=
  max minTabs ((pyTrunc (perimeter / maxDistance)).toNat + 1)

/-- Follows the spec's words for C5: "number of tabs = max(minimum tabs per
part, ceil(perimeter / max tab spacing))". -/
def specNumTabs (minTabs : ℕ) (perimeter maxSpacing : ℚ) : ℕ :=
  max minTabs (qceil (perimeter / maxSpacing)).toNat

/-- The tab-creation scan of `_calculate_tab_positions`: walk the contour
accumulating segment lengths and place the tab on the first segment whose
cumulative span reaches the target distance (no tab if the scan runs out). -/
def tabAtDistanceGo (mf : MathFns) (cfg : CuttingCfg) (targetDistance : ℚ) :
    List Geometry → ℚ → Option TabRec
  | [], _ => none
  | g :: rest, currentDistance =>
    let segmentLength := getSegmentLength mf g
    if targetDistance ≤ currentDistance + segmentLength then
      let se := createTabOnSegment mf g (targetDistance - currentDistance) cfg.tabs.width
      some ⟨se.1, se.2, cfg.tabs.height⟩
    else tabAtDistanceGo mf cfg targetDistance rest (currentDistance + segmentLength)

def tabAtDistance (mf : MathFns) (cfg : CuttingCfg) (contour : List Geometry)
    (targetDistance : ℚ) : Option TabRec :=
  tabAtDistanceGo mf cfg targetDistance contour 0

/-- `ToolpathGenerator._calculate_tab_positions`. -/
def calcTabPositions (mf : MathFns) (cfg : CuttingCfg) (contour : List Geometry)
    (totalLength : ℚ) : List TabRec :=
  if !cfg.tabs.enabled then []
  else
    let corners := findCorners mf cfg contour
    let numTabs := tpgNumTabs cfg totalLength
    let tabSpacing := totalLength / (numTabs : ℚ)
    let candidates := (List.range (numTabs * 3)).filterMap (fun (i : ℕ) =>
      let distance := pyMod ((i : ℚ) * tabSpacing / 3) totalLength
      if isValidTabPosition cfg distance corners totalLength then some distance else none)
    let selected :=
      if numTabs ≤ candidates.length then
        match stableSortBy (fun a b => decide (a ≤ b)) candidates with
        | [] => []
        | c0 :: rest =>
          selectTabPositions totalLength (c0 :: rest) numTabs numTabs [c0]
      else
        (List.range numTabs).map (fun (i : ℕ) =>
          adjustAwayFromCorners cfg ((i : ℚ) * tabSpacing + tabSpacing / 2) corners
            totalLength)
    selected.filterMap (tabAtDistance mf cfg contour)

/-- `ToolpathGenerator._interpolate_arc`: at least 8 segments, 2 per mm of
arc length, sweeping the (possibly wrapped) angle range. -/
def interpolateArc (mf : MathFns) (arc : Geometry) (z : ℚ) : List (ℚ × ℚ × ℚ) :=
  let arcLength := getSegmentLength mf arc
  let numSegments := max 8 (pyTrunc (arcLength * 2)).toNat
  let sa := mf.radiansQ arc.startAngle
  let ea0 := mf.radiansQ arc.endAngle
  let ea := if ea0 < sa then ea0 + 2 * mf.piQ else ea0
  (List.range (numSegments + 1)).map (fun (i : ℕ) =>
    let t := (i : ℚ) / (numSegments : ℚ)
    let angle := sa + t * (ea - sa)
    (arc.center.1 + arc.radius * mf.cosQ angle,
     arc.center.2 + arc.radius * mf.sinQ angle, z))

/-- `ToolpathGenerator._cut_segment`: a line contributes its two
endpoints, an arc its interpolation, anything else nothing. -/
def cutSegment (mf : MathFns) (g : Geometry) (z : ℚ) : List (ℚ × ℚ × ℚ) :=
  match g.gkind with
  | GKind.line => [(g.startPt.1, g.startPt.2, z), (g.endPt.1, g.endPt.2, z)]
  | GKind.arc => interpolateArc mf g z
  | GKind.circle => []

/-- `ToolpathGenerator._point_on_line` (tolerance 0.1). -/
def pointOnLine (mf : MathFns) (p s e : ℚ × ℚ) : Bool :=
  let tol : ℚ := 1 / 10
  let lineLen := mf.sqrtQ ((e.1 - s.1) ^ 2 + (e.2 - s.2) ^ 2)
  if lineLen < tol then false
  else
    let ux := (e.1 - s.1) / lineLen
    let uy := (e.2 - s.2) / lineLen
    let projLen := (p.1 - s.1) * ux + (p.2 - s.2) * uy
    if projLen < 0 ∨ lineLen < projLen then false
    else
      let projX := s.1 + projLen * ux
      let projY := s.2 + projLen * uy
      decide (mf.sqrtQ ((p.1 - projX) ^ 2 + (p.2 - projY) ^ 2) < tol)

/-- `ToolpathGenerator._angle_in_range` (degrees, wrap-around). -/
def angleInRange (angle start stop : ℚ) : Bool :=
  let a := pyMod angle 360
  let s := pyMod start 360
  let e := pyMod stop 360
  if s ≤ e then decide (s ≤ a ∧ a ≤ e) else decide (s ≤ a ∨ a ≤ e)

/-- `ToolpathGenerator._point_on_arc` (tolerance 0.1). -/
def pointOnArc (mf : MathFns) (p : ℚ × ℚ) (arc : Geometry) : Bool :=
  let tol : ℚ := 1 / 10
  let dist := mf.sqrtQ ((p.1 - arc.center.1) ^ 2 + (p.2 - arc.center.2) ^ 2)
  if tol < abs (dist - arc.radius) then false
  else
    let angle := mf.degreesQ (mf.arctan2Q (p.2 - arc.center.2) (p.1 - arc.center.1))
    angleInRange angle arc.startAngle arc.endAngle

/-- `ToolpathGenerator._tab_on_segment`. -/
def tabOnSegment (mf : MathFns) (g : Geometry) (tab : TabRec) : Bool :=
  match g.gkind with
  | GKind.line => pointOnLine mf tab.start_point g.startPt g.endPt
  | GKind.arc => pointOnArc mf tab.start_point g
  | GKind.circle => false

/-- `ToolpathGenerator._cut_segment_with_tabs`: lift over each tab, then
finish at the segment's end point. -/
def cutSegmentWithTabs (g : Geometry) (segmentTabs : List TabRec)
    (zCut zTab : ℚ) : List (ℚ × ℚ × ℚ) :=
  (segmentTabs.flatMap fun tab =>
    [(tab.start_point.1, tab.start_point.2, zCut),
     (tab.start_point.1, tab.start_point.2, zTab),
     (tab.end_point.1, tab.end_point.2, zTab),
     (tab.end_point.1, tab.end_point.2, zCut)]) ++
  [(g.endPt.1, g.endPt.2, zCut)]

/-- `ToolpathGenerator._cut_contour_with_tabs` loop: track which tab
indices were already consumed by an earlier segment. -/
def cutContourWithTabsGo (mf : MathFns) (cfg : CuttingCfg) (tabs : List TabRec)
    (zDepth zTab : ℚ) :
    List Geometry → List ℕ → List (ℚ × ℚ × ℚ)
  | [], _ => []
  | g :: rest, processed =>
    let segmentTabs := (tabs.enum.filter fun it =>
      decide (it.1 ∉ processed) && tabOnSegment mf g it.2)
    if segmentTabs.isEmpty then
      cutSegment mf g zDepth ++
        cutContourWithTabsGo mf cfg tabs zDepth zTab rest processed
    else
      cutSegmentWithTabs g (segmentTabs.map Prod.snd) zDepth zTab ++
        cutContourWithTabsGo mf cfg tabs zDepth zTab rest
          (processed ++ segmentTabs.map Prod.fst)

/-- `ToolpathGenerator._cut_contour_with_tabs`. -/
def cutContourWithTabs (mf : MathFns) (cfg : CuttingCfg) (contour : List Geometry)
    (tabs : List TabRec) (zDepth : ℚ) : List (ℚ × ℚ × ℚ) :=
  cutContourWithTabsGo mf cfg tabs zDepth (zDepth + cfg.tabs.height) contour []

/-- `ToolpathGenerator._generate_contour_with_tabs`: approach at safety
height, then for each step-down depth plunge, cut the contour (with tabs),
return to the start, and finally retract. -/
def generateContourWithTabs (mf : MathFns) (cfg : CuttingCfg) (part : TPart) :
    Toolpath :=
  let contour := part.outer_contour
  let totalLength := calculateContourLength mf contour
  let tabs := calcTabPositions mf cfg contour totalLength
  let startPt := (contour.headD default).startPt
  let depths := stepdownDepths cfg.material.thickness cfg.material.step_down
  let points :=
    (startPt.1, startPt.2, cfg.safety_height) ::
      (depths.flatMap fun d =>
        (startPt.1, startPt.2, -d) ::
          cutContourWithTabs mf cfg contour tabs (-d) ++
            [(startPt.1, startPt.2, -d)]) ++
      [(startPt.1, startPt.2, cfg.safety_height)]
  ⟨"contour", points, cfg.material.feed_rate, cfg.material.plunge_rate⟩

/-- `ToolpathGenerator._calculate_bbox` over a contour's segment start and
end points (`(min_x, min_y, max_x, max_y)`; `(0,0,0,0)` for no points). -/
def calcBbox (contour : List Geometry) : ℚ × ℚ × ℚ × ℚ :=
  let pts := contour.flatMap fun g => [g.startPt, g.endPt]
  match pts with
  | [] => (0, 0, 0, 0)
  | p :: rest =>
    (rest.foldl (fun m q => min m q.1) p.1,
     rest.foldl (fun m q => min m q.2) p.2,
     rest.foldl (fun m q => max m q.1) p.1,
     rest.foldl (fun m q => max m q.2) p.2)

/-- `ToolpathGenerator._generate_pocket_toolpath`. -/
def generatePocketToolpath (mf : MathFns) (cfg : CuttingCfg)
    (contour : List Geometry) : Toolpath :=
  let startPt := (contour.headD default).startPt
  let depths := stepdownDepths cfg.material.thickness cfg.material.step_down
  let points :=
    (startPt.1, startPt.2, cfg.safety_height) ::
      (depths.flatMap fun d => contour.flatMap fun g => cutSegment mf g (-d)) ++
      [(startPt.1, startPt.2, cfg.safety_height)]
  ⟨"pocket", points, cfg.material.feed_rate, cfg.material.plunge_rate⟩

/-- The bounding-box radius `_generate_hole_toolpath` derives for a hole. -/
def holeRadiusOf (hole : List Geometry) : ℚ :=
  let bbox := calcBbox hole
  (bbox.2.2.1 - bbox.1) / 2

/-- `ToolpathGenerator._generate_hole_toolpath`: holes whose bounding-box
radius is at most the tool radius get a straight drill cycle (even when the
radius is strictly smaller than the tool radius!); larger holes get the
pocket toolpath. -/
def generateHoleToolpath (mf : MathFns) (cfg : CuttingCfg) (hole : List Geometry) :
    Toolpath :=
  let bbox := calcBbox hole
  let centerX := (bbox.1 + bbox.2.2.1) / 2
  let centerY := (bbox.2.1 + bbox.2.2.2) / 2
  let radius := (bbox.2.2.1 - bbox.1) / 2
  if radius ≤ cfg.tool.diameter / 2 then
    ⟨"drill",
     [(centerX, centerY, cfg.safety_height),
      (centerX, centerY, -cfg.material.thickness),
      (centerX, centerY, cfg.safety_height)],
     cfg.material.plunge_rate, cfg.material.plunge_rate⟩
  else generatePocketToolpath mf cfg hole

/-- The inner nearest-toolpath search of `_optimize_toolpath_order`:
index of the remaining toolpath whose first point is closest (strictly) to
the given point, earlier indices winning ties. -/
def nearestToolpathIdx (mf : MathFns) (lastPoint : ℚ × ℚ × ℚ)
    (remaining : List Toolpath) : ℕ :=
  (remaining.enum.foldl
    (fun (acc : Option ℚ × ℕ) it =>
      let firstPoint := it.2.points.headD (0, 0, 0)
      let dist := mf.sqrtQ ((firstPoint.1 - lastPoint.1) ^ 2 +
        (firstPoint.2.1 - lastPoint.2.1) ^ 2)
      match acc.1 with
      | none => (some dist, it.1)
      | some m => if dist < m then (some dist, it.1) else acc)
    (none, 0)).2

/-- The `while remaining` loop of `_optimize_toolpath_order`; each round
pops the nearest toolpath, so `remaining.length` fuel is exact. -/
def optimizeOrderGo (mf : MathFns) : ℕ → Toolpath → List Toolpath → List Toolpath
  | 0, _, remaining => remaining
  | fuel + 1, lastTp, remaining =>
    match remaining with
    | [] => []
    | _ =>
      let lastPoint := lastTp.points.getLastD (0, 0, 0)
      let idx := nearestToolpathIdx mf lastPoint remaining
      let chosen := remaining.getD idx default
      chosen :: optimizeOrderGo mf fuel chosen (remaining.eraseIdx idx)

/-- `ToolpathGenerator._optimize_toolpath_order`: keep the first toolpath,
then nearest-neighbour chain the rest. -/
def optimizeToolpathOrder (mf : MathFns) (toolpaths : List Toolpath) : List Toolpath :=
  match toolpaths with
  | [] => []
  | [t] => [t]
  | t0 :: rest => t0 :: optimizeOrderGo mf rest.length t0 rest

/-- `ToolpathGenerator.generate_toolpaths`: per part, the outer-contour
toolpath is appended first and the hole toolpaths after it; the whole list
is then nearest-neighbour reordered. -/
def generateToolpaths (mf : MathFns) (cfg : CuttingCfg) (parts : List TPart) :
    List Toolpath :=
  optimizeToolpathOrder mf
    (parts.flatMap fun part =>
      generateContourWithTabs mf cfg part ::
        part.holes.map (generateHoleToolpath mf cfg))

/-! ### `boring.py` (`BoringOperation`) -/

/-- The `material_settings["operations"]["boring"]` fields
`BoringOperation` reads. -/
structure BoringSettings where
  depth_per_pass : ℚ
  tool_diameter : ℚ
  plunge_rate : ℚ
  feed_rate : ℚ
  pecking : Bool
  deriving DecidableEq, Repr

/-- One move dict produced by `BoringOperation` (`feed_rate` is absent on
rapid retracts). -/
structure BMove where
  btype : String
  position : ℚ × ℚ
  depth : ℚ
  feed_rate : Option ℚ
  operation : String
  deriving DecidableEq, Repr

/-- `BoringOperation._generate_helical_boring`: a constant-pitch (0.5 mm per
revolution) helix at radius `hole_radius - tool_radius`, 36 points per
revolution, linearly interpolated from the start to the end depth. -/
def generateHelicalBoring (mf : MathFns) (st : BoringSettings) (center : ℚ × ℚ)
    (holeRadius toolRadius startDepth endDepth : ℚ) : List BMove :=
  let cutRadius := holeRadius - toolRadius
  let helixPitch : ℚ := 1 / 2
  let depthDelta := endDepth - startDepth
  let numRevolutions := depthDelta / helixPitch
  let totalPoints := (pyTrunc (numRevolutions * 36)).toNat
  (List.range (totalPoints + 1)).map fun (i : ℕ) =>
    let angle := ((i : ℚ) / 36) * (2 * mf.piQ)
    let z := -(if totalPoints = 0 then startDepth
      else startDepth + (endDepth - startDepth) * (i : ℚ) / (totalPoints : ℚ))
    ⟨"helical_move",
     (center.1 + cutRadius * mf.cosQ angle, center.2 + cutRadius * mf.sinQ angle),
     z, some st.feed_rate, if 0 < i then "G01" else "G00"⟩

/-- The error message raised by `BoringOperation.generate_toolpath` for a
hole smaller than the tool. -/
def boringHoleError (st : BoringSettings) (holeRadius : ℚ) : String :=
  "Hole diameter (" ++ toString (holeRadius * 2) ++
    "mm) is smaller than tool diameter (" ++ toString st.tool_diameter ++ "mm)"

/-- The per-pass loop of `BoringOperation.generate_toolpath`: plunge when
the hole exactly fits the tool, helical boring otherwise, with an optional
pecking retract between passes. -/
def boringPassesGo (mf : MathFns) (st : BoringSettings) (center : ℚ × ℚ)
    (holeRadius materialThickness : ℚ) (numPasses : ℕ) :
    ℕ → ℕ → ℚ → List BMove
  | 0, _, _ => []
  | n + 1, passNum, currentDepth =>
    let passDepth := min st.depth_per_pass (materialThickness - currentDepth)
    let newDepth := currentDepth + passDepth
    let moves :=
      if holeRadius = st.tool_diameter / 2 then
        [⟨"boring_plunge", center, -newDepth, some st.plunge_rate, "G01"⟩]
      else
        generateHelicalBoring mf st center holeRadius (st.tool_diameter / 2)
          (newDepth - passDepth) newDepth
    let peck : List BMove :=
      if st.pecking ∧ passNum < numPasses - 1 then
        [⟨"rapid_retract", center, 2, none, "G00"⟩]
      else []
    moves ++ peck ++
      boringPassesGo mf st center holeRadius materialThickness numPasses n
        (passNum + 1) newDepth

/-- `BoringOperation.generate_toolpath`: raises for a hole strictly smaller
than the tool, otherwise emits `ceil(thickness / depth_per_pass)` passes
followed by a rapid retract to safe height. -/
def boringGenerateToolpath (mf : MathFns) (st : BoringSettings) (center : ℚ × ℚ)
    (holeRadius materialThickness : ℚ) : Except String (List BMove) :=
  let numPasses := (qceil (materialThickness / st.depth_per_pass)).toNat
  let toolRadius := st.tool_diameter / 2
  if holeRadius < toolRadius then Except.error (boringHoleError st holeRadius)
  else
    Except.ok
      (boringPassesGo mf st center holeRadius materialThickness numPasses
          numPasses 0 0 ++
        [⟨"rapid_retract", center, 5, none, "G00"⟩])

/-! ### `mach3.py` (`Mach3PostProcessor`)

`datetime.now()` is the post-processor's only run-dependent input; it is
threaded through as the explicit `now` string. -/

/-- One toolpath move dict consumed by `Mach3PostProcessor`
(`generate_gcode` reads `type`, `operation` (default `"G01"`), `position`,
and the optional `depth` and `feed_rate`). -/
structure M3Move where
  mtype : String
  operation : String
  position : ℚ × ℚ
  depth : Option ℚ
  feed_rate : Option ℚ
  deriving DecidableEq, Repr

/-- The modal state `Mach3PostProcessor` carries across moves. -/
structure M3State where
  x : ℚ
  y : ℚ
  z : ℚ
  feed : ℚ
  deriving DecidableEq, Repr

/-- Fixed-point rendering of `f"{q:.3f}"` (three decimals; ties round up in
this model, a rounding detail no theorem depends on). -/
def fmt3 (q : ℚ) : String :=
  let m : ℤ := qround (q * 1000)
  let absPart := m.natAbs
  let frac := absPart % 1000
  let fracStr := toString frac
  let pad := if frac < 10 then "00" else if frac < 100 then "0" else ""
  (if m < 0 then "-" else "") ++ toString (absPart / 1000) ++ "." ++ pad ++ fracStr

/-- Rendering of `f"{feed:.0f}"`. -/
def fmt0 (q : ℚ) : String :=
  let m : ℤ := qround q
  (if m < 0 then "-" else "") ++ toString m.natAbs

/-- `Mach3PostProcessor._get_move_comment`. -/
def m3MoveComment (moveType : String) : String :=
  if moveType = "rapid_retract" then "Retract"
  else if moveType = "plunge" then "Plunge"
  else if moveType = "boring_plunge" then "Bore hole"
  else if moveType = "helical_move" then "Helical bore"
  else if moveType = "slot_cut" then "Slot"
  else if moveType = "contour_cut" then "Contour"
  else if moveType = "lead_in" then "Lead in"
  else if moveType = "lead_out" then "Lead out"
  else if moveType = "ramp_move" then "Ramp entry"
  else if moveType = "tab_lift" then "Tab"
  else ""

/-- `Mach3PostProcessor._process_toolpath_move`: emit the operation word,
the coordinate words that changed, the feed word when changed on a cutting
move, and a comment; a line with nothing but the operation word is dropped
(`None`), though the modal state still updates. -/
def m3ProcessMove (st : M3State) (mv : M3Move) : M3State × Option String :=
  let x := mv.position.1
  let y := mv.position.2
  let z := mv.depth.getD st.z
  let feed := mv.feed_rate.getD st.feed
  let partsX : List String := if x ≠ st.x then ["X" ++ fmt3 x] else []
  let partsY : List String := if y ≠ st.y then ["Y" ++ fmt3 y] else []
  let partsZ : List String := if z ≠ st.z then ["Z" ++ fmt3 z] else []
  let partsF : List String :=
    if (mv.operation = "G01" ∨ mv.operation = "G02" ∨ mv.operation = "G03") ∧
        feed ≠ st.feed then ["F" ++ fmt0 feed] else []
  let comment := m3MoveComment mv.mtype
  let partsC : List String := if comment ≠ "" then ["(" ++ comment ++ ")"] else []
  let gcodeParts := mv.operation :: (partsX ++ partsY ++ partsZ ++ partsF ++ partsC)
  let st' : M3State :=
    ⟨x, y, z, if partsF.isEmpty then st.feed else feed⟩
  (st', if 1 < gcodeParts.length then some (" ".intercalate gcodeParts) else none)

/-- `Mach3PostProcessor._generate_header`; `now` is the
`datetime.now().strftime('%Y-%m-%d %H:%M:%S')` value of this run. -/
def m3Header (programName materialName : String) (toolDiameter : ℚ)
    (now : String) : List String :=
  ["(Program: " ++ programName ++ ")",
   "(Generated: " ++ now ++ ")",
   "(Material: " ++ materialName ++ ")",
   "(Tool: " ++ toString toolDiameter ++ "mm End Mill)",
   "(Units: MM)",
   ""]

/-- `Mach3PostProcessor._generate_initialization`. -/
def m3Initialization (spindleSpeed : ℕ) : List String :=
  ["G17 G21 G40 G49 G80 G90 G94",
   "G91.1",
   "T1 M6",
   "S" ++ toString spindleSpeed ++ " M3",
   "G54",
   "G0 Z5.0",
   "M8",
   ""]

/-- `Mach3PostProcessor._generate_footer`. -/
def m3Footer : List String :=
  ["",
   "G0 Z25.0",
   "M5",
   "M9",
   "G28 G91 Z0",
   "G90",
   "M30",
   "%"]

/-- The `for toolpath in toolpaths` loop of `generate_gcode`, threading the
modal state and keeping only emitted lines. -/
def m3ProcessMoves (st : M3State) : List M3Move → List String
  | [] => []
  | mv :: rest =>
    let out := m3ProcessMove st mv
    match out.2 with
    | some line => line :: m3ProcessMoves out.1 rest
    | none => m3ProcessMoves out.1 rest

/-- `Mach3PostProcessor.generate_gcode` as a list of lines. -/
def m3GcodeLines (materialName : String) (toolDiameter : ℚ)
    (toolpaths : List M3Move) (spindleSpeed : ℕ) (programName now : String) :
    List String :=
  m3Header programName materialName toolDiameter now ++
    m3Initialization spindleSpeed ++
    m3ProcessMoves ⟨0, 0, 0, 0⟩ toolpaths ++
    m3Footer

/-- `Mach3PostProcessor.generate_gcode` (joined with newlines). -/
def m3GenerateGcode (materialName : String) (toolDiameter : ℚ)
    (toolpaths : List M3Move) (spindleSpeed : ℕ) (programName now : String) :
    String :=
  "\n".intercalate
    (m3GcodeLines materialName toolDiameter toolpaths spindleSpeed programName now)

/-! ### `dxf_parser.py`: contour tracing (`_trace_contour`) -/

/-- A segment dict built by `DXFParser._extract_segments`.  `entityId`
stands for the distinct ezdxf entity object stored under the `"entity"`
key: two segment dicts compare `==` in Python only when they hold the very
same entity, so distinct extracted segments are never equal — captured in
proofs by a `Nodup` hypothesis on the segment table. -/
structure Seg where
  skind : GKind
  startPt : ℚ × ℚ
  endPt : ℚ × ℚ
  center : ℚ × ℚ
  radius : ℚ
  startAngle : ℚ
  endAngle : ℚ
  entityId : ℕ
  deriving DecidableEq, Repr, Inhabited

/-- `DXFParser._points_equal`. -/
def pointsEqual (p1 p2 : ℚ × ℚ) (tol : ℚ) : Bool :=
  decide (abs (p1.1 - p2.1) < tol ∧ abs (p1.2 - p2.2) < tol)

/-- Python `round(x, 3)` (model: ties round up — no theorem depends on the
tie direction). -/
def round3 (q : ℚ) : ℚ := (qround (q * 1000) : ℤ) / 1000

/-- `DXFParser._round_point(point, 3)`. -/
def roundPoint (p : ℚ × ℚ) : ℚ × ℚ := (round3 p.1, round3 p.2)

/-- `DXFParser._generate_arc_points` (`np.linspace` over the possibly
wrapped angle range). -/
def genArcPoints (mf : MathFns) (seg : Seg) (numPoints : ℕ) : List (ℚ × ℚ) :=
  let sa := mf.radiansQ seg.startAngle
  let ea0 := mf.radiansQ seg.endAngle
  let ea := if ea0 < sa then ea0 + 2 * mf.piQ else ea0
  (List.range numPoints).map fun (i : ℕ) =>
    let angle := if numPoints ≤ 1 then sa
      else sa + (ea - sa) * (i : ℚ) / ((numPoints : ℚ) - 1)
    (seg.center.1 + seg.radius * mf.cosQ angle,
     seg.center.2 + seg.radius * mf.sinQ angle)

/-- The `connections` defaultdict of `_assemble_contours`, as an
association list from rounded points to `(next_point, segment_index)`
pairs; a missing key yields `[]`. -/
abbrev Connections : Type := List ((ℚ × ℚ) × List ((ℚ × ℚ) × ℕ))

def connLookup (conns : Connections) (pt : ℚ × ℚ) : List ((ℚ × ℚ) × ℕ) :=
  match List.find? (fun e => decide (e.1 = pt)) conns with
  | some e => e.2
  | none => []

/-- The restore loop at the end of a failed `_trace_contour`: for each
consumed segment dict, discard every index of the segment table holding an
equal dict. -/
def restoreUsed (segMap : List Seg) (pathSegments : List Seg) (used : Finset ℕ) :
    Finset ℕ :=
  pathSegments.foldl
    (fun u seg =>
      (List.range segMap.length).foldl
        (fun u2 i => if segMap.getD i default = seg then u2.erase i else u2) u)
    used

/-- A successfully traced contour (the returned dict's `points` and
`segments`). -/
structure TraceResult where
  points : List (ℚ × ℚ)
  segments : List Seg
  deriving DecidableEq, Repr

/-- The per-segment path-point update of `_trace_contour`: arcs are
interpolated (reversed when entered from their end), lines contribute their
two endpoints in traversal order; the second component is the new current
point. -/
def traceStepUpdate (mf : MathFns) (currentPoint : ℚ × ℚ)
    (pathPoints : List (ℚ × ℚ)) (seg : Seg) : List (ℚ × ℚ) × (ℚ × ℚ) :=
  if seg.skind = GKind.arc then
    let arcPts :=
      if pointsEqual currentPoint seg.startPt (1/2) then genArcPoints mf seg 20
      else (genArcPoints mf seg 20).reverse
    (pathPoints ++ arcPts, arcPts.getLastD currentPoint)
  else
    if pointsEqual currentPoint seg.startPt (1/2) then
      (pathPoints ++ [seg.startPt, seg.endPt], seg.endPt)
    else (pathPoints ++ [seg.endPt, seg.startPt], seg.startPt)

/-- The `while segment_count < max_segments` loop of
`DXFParser._trace_contour`; the fuel is the remaining iteration budget
(the Python guard), so the embedding is total by construction. -/
def traceContourGo (mf : MathFns) (segMap : List Seg) (conns : Connections)
    (startPoint : ℚ × ℚ) :
    ℕ → (ℚ × ℚ) → List (ℚ × ℚ) → List Seg → Finset ℕ →
    Option TraceResult × Finset ℕ
  | 0, _, _, pathSegments, used =>
    (none, restoreUsed segMap pathSegments used)
  | fuel + 1, currentPoint, pathPoints, pathSegments, used =>
    let currentRounded := roundPoint currentPoint
    match (connLookup conns currentRounded).find? (fun pr => decide (pr.2 ∉ used)) with
    | none =>
      if 2 < pathPoints.length ∧ pointsEqual currentPoint startPoint (1/2) then
        (some ⟨pathPoints, pathSegments⟩, used)
      else (none, restoreUsed segMap pathSegments used)
    | some pr =>
      let segIdx := pr.2
      let used' := insert segIdx used
      let seg := segMap.getD segIdx default
      let pathSegments' := pathSegments ++ [seg]
      let upd := traceStepUpdate mf currentPoint pathPoints seg
      if 3 < upd.1.length ∧ pointsEqual upd.2 startPoint (1/2) then
        (some ⟨upd.1, pathSegments'⟩, used')
      else
        traceContourGo mf segMap conns startPoint fuel upd.2 upd.1 pathSegments' used'

/-- `DXFParser._trace_contour` (`max_segments = 200`). -/
def traceContour (mf : MathFns) (segMap : List Seg) (conns : Connections)
    (startPoint : ℚ × ℚ) (used : Finset ℕ) : Option TraceResult × Finset ℕ :=
  traceContourGo mf segMap conns startPoint 200 startPoint [] [] used

/-! ### `dxf_parser.py`: part/hole classification (`_classify_geometries`) -/

/-- One entry of the `polygons` list `_classify_geometries` builds: the
shapely geometry (abstract type `G`) and its area. -/
structure PolyData (G : Type) where
  geom : G
  area : ℚ
  deriving DecidableEq, Repr

/-- One entry of `DXFParser.parts`: outer geometry plus hole list. -/
structure ClsPart (G : Type) where
  geom : G
  holes : List G
  area : ℚ
  deriving DecidableEq, Repr

/-- The parent lookup plus hole attachment of `_classify_geometries`: the
first part whose geometry equals the containing polygon's geometry gets the
new hole appended; when no part matches (`parent_idx is None`) the list is
unchanged and the contour is dropped. -/
def addHoleToPart {G : Type} [DecidableEq G] (parent hole : G) :
    List (ClsPart G) → List (ClsPart G)
  | [] => []
  | p :: rest =>
    if p.geom = parent then { p with holes := p.holes ++ [hole] } :: rest
    else p :: addHoleToPart parent hole rest

/-- One iteration of the classification loop: the first earlier polygon
containing the new one makes it a hole (attached to the matching part if
any); otherwise it becomes a new part. -/
def classifyStep {G : Type} [DecidableEq G] (contains : G → G → Bool)
    (processed : List G) (parts : List (ClsPart G)) (pd : PolyData G) :
    List (ClsPart G) :=
  match processed.find? (fun g => contains g pd.geom) with
  | some parent => addHoleToPart parent pd.geom parts
  | none => parts ++ [⟨pd.geom, [], pd.area⟩]

/-- The classification loop over the area-sorted polygon list. -/
def classifySortedGo {G : Type} [DecidableEq G] (contains : G → G → Bool) :
    List (PolyData G) → List G → List (ClsPart G) → List (ClsPart G)
  | [], _, parts => parts
  | pd :: rest, processed, parts =>
    classifySortedGo contains rest (processed ++ [pd.geom])
      (classifyStep contains processed parts pd)

/-- `_classify_geometries` applied to an already area-sorted polygon list. -/
def classifySorted {G : Type} [DecidableEq G] (contains : G → G → Bool)
    (polys : List (PolyData G)) : List (ClsPart G) :=
  classifySortedGo contains polys [] []

/-- `DXFParser._classify_geometries`: stable-sort by area descending, then
classify in order. -/
def classifyGeometries {G : Type} [DecidableEq G] (contains : G → G → Bool)
    (polys : List (PolyData G)) : List (ClsPart G) :=
  classifySorted contains (stableSortBy (fun a b => decide (b.area ≤ a.area)) polys)

/-- Containment table of a concrete three-contour drawing: polygon 0
contains polygon 1 (its hole), and polygon 1 contains polygon 2; polygon 2
is inside the hole, so no part-polygon contains it. -/
def natContains (g h : ℕ) : Bool :=
  decide ((g, h) = (0, 1) ∨ (g, h) = (1, 2))

/-! ### Concrete fixtures for the toolpath claims -/

/-- A line segment. -/
def lineG (s e : ℚ × ℚ) : Geometry := ⟨GKind.line, s, e, (0, 0), 0, 0, 0⟩

/-- A 10×10 square outer contour of four lines. -/
def squareContour : List Geometry :=
  [lineG (0, 0) (10, 0), lineG (10, 0) (10, 10),
   lineG (10, 10) (0, 10), lineG (0, 10) (0, 0)]

/-- A 2×2 square hole (bounding-box radius 1) centred at (5,5). -/
def holeContour : List Geometry :=
  [lineG (4, 4) (6, 4), lineG (6, 4) (6, 6),
   lineG (6, 6) (4, 6), lineG (4, 6) (4, 4)]

/-- Config with tabs disabled, 3 mm material cut in one 3 mm pass, 6 mm
tool. -/
def cexCfg : CuttingCfg := ⟨⟨3, 1000, 300, 3⟩, ⟨6⟩, ⟨false, 3, 8, 100, 2, 10, 45⟩, 5⟩

/-- Config with tabs enabled, tab spacing 10 and minimum 1 tab per part. -/
def tabCfg25 : CuttingCfg := ⟨⟨3, 1000, 300, 3⟩, ⟨6⟩, ⟨true, 3, 8, 10, 1, 10, 45⟩, 5⟩

/-- The square part with one small hole. -/
def cexTPart : TPart := ⟨squareContour, [holeContour]⟩

/-- Boring settings: 3 mm per pass, 6 mm tool, no pecking. -/
def cexBoring : BoringSettings := ⟨3, 6, 300, 1000, false⟩

/-- The single-segment table of the C9 witness. -/
def traceSegMap : List Seg := [⟨GKind.line, (0, 0), (1, 0), (0, 0), 0, 0, 0, 0⟩]

/-- Connections of the C9 witness: only (0,0) connects forward, so the
trace consumes the one segment, reaches (1,0), cannot continue, fails to
close, and must restore the used set. -/
def traceConns : Connections := [((0, 0), [((1, 0), 0)])]

theorem qfloor_eq_floor (q : ℚ) : qfloor q = ⌊q⌋ := Rat.floor_def.symm

theorem qceil_eq_ceil (q : ℚ) : qceil q = ⌈q⌉ := by
  rw [qceil, qfloor_eq_floor, Int.floor_neg, neg_neg]

theorem arangeQ_nonneg {stop step x : ℚ} (hstep : 0 ≤ step)
    (hx : x ∈ arangeQ stop step) : 0 ≤ x := by
  rw [arangeQ] at hx
  simp only [List.mem_map, List.mem_range] at hx
  obtain ⟨k, -, rfl⟩ := hx
  have hk : (0:ℚ) ≤ (k:ℚ) := by exact_mod_cast Nat.zero_le k
  exact mul_nonneg hk hstep

theorem findPositionForPolygon_spec {K : GeoKernel P} {sheetW sheetH spacing : ℚ}
    {polygon : P} {partWidth partHeight : ℚ} {occupied : List P} {x y : ℚ}
    (h : findPositionForPolygon K sheetW sheetH spacing polygon partWidth partHeight occupied
      = some (x, y)) :
    0 ≤ x ∧ 0 ≤ y ∧
    (K.boundsP (K.translateP polygon x y)).maxX ≤ sheetW ∧
    (K.boundsP (K.translateP polygon x y)).maxY ≤ sheetH ∧
    ∀ q ∈ occupied,
      K.intersectsP (K.translateP polygon x y) (K.bufferP q spacing) = false := by
  unfold findPositionForPolygon at h
  obtain ⟨y₀, hy₀mem, hy₀⟩ := List.exists_of_findSome?_eq_some h
  obtain ⟨x₀, hx₀mem, hx₀⟩ := List.exists_of_findSome?_eq_some hy₀
  dsimp only at hx₀
  split at hx₀
  · exact absurd hx₀ (by simp)
  · split at hx₀
    · exact absurd hx₀ (by simp)
    · rename_i hbnd hcol
      obtain ⟨rfl, rfl⟩ : x₀ = x ∧ y₀ = y := by
        simpa [Prod.ext_iff] using hx₀
      push_neg at hbnd
      have hstep : (0:ℚ) ≤ max 1 (min partWidth partHeight / 10) :=
        le_trans zero_le_one (le_max_left _ _)
      refine ⟨arangeQ_nonneg hstep hx₀mem, arangeQ_nonneg hstep hy₀mem,
        hbnd.1, hbnd.2, ?_⟩
      intro q hq
      refine Bool.eq_false_iff.mpr (fun htrue => hcol ?_)
      exact List.any_eq_true.mpr ⟨q, hq, htrue⟩

theorem rotationCandidate_spec {K : GeoKernel P} {sheetW sheetH spacing : ℚ}
    {part : NestPart P} {occupied : List P} {angle x y rot : ℚ} {rp : P}
    (h : rotationCandidate K sheetW sheetH spacing part occupied angle
      = some (x, y, rot, rp)) :
    rot = angle ∧
    rp = normalizePolygon K (K.rotateP part.polygon angle part.centroid) ∧
    ∃ w hgt, findPositionForPolygon K sheetW sheetH spacing rp w hgt occupied = some (x, y) := by
  rcases hpos : findPositionForPolygon K sheetW sheetH spacing
      (normalizePolygon K (K.rotateP part.polygon angle part.centroid))
      ((K.boundsP (normalizePolygon K (K.rotateP part.polygon angle part.centroid))).maxX -
        (K.boundsP (normalizePolygon K (K.rotateP part.polygon angle part.centroid))).minX)
      ((K.boundsP (normalizePolygon K (K.rotateP part.polygon angle part.centroid))).maxY -
        (K.boundsP (normalizePolygon K (K.rotateP part.polygon angle part.centroid))).minY)
      occupied with _ | p
  · simp only [rotationCandidate] at h
    rw [hpos] at h
    split at h <;> simp_all
  · obtain ⟨x', y'⟩ := p
    simp only [rotationCandidate] at h
    rw [hpos] at h
    split at h
    · cases h
    · obtain ⟨rfl, rfl, rfl, rfl⟩ :
          x' = x ∧ y' = y ∧ angle = rot ∧
            normalizePolygon K (K.rotateP part.polygon angle part.centroid) = rp := by
        simpa [Prod.ext_iff] using h
      exact ⟨rfl, rfl, _, _, hpos⟩

theorem chooseBestStep_le {α γ : Type} {score : γ → ℚ} {f : α → Option γ}
    {init : Option γ} {a : α} {m : γ}
    (h : chooseBestStep score f init a = some m) :
    (f a = some m ∨ init = some m) ∧
      (∀ b, init = some b → score m ≤ score b) := by
  unfold chooseBestStep at h
  split at h
  · exact ⟨Or.inr h, fun b hb => by rw [h] at hb; cases hb; exact le_refl _⟩
  · rename_i ca hfa
    split at h
    · cases h
      exact ⟨Or.inl hfa, fun b hb => by cases hb⟩
    · rename_i b₀
      split at h
      · cases h
        rename_i hlt
        exact ⟨Or.inl hfa, fun b hb => by cases hb; exact le_of_lt hlt⟩
      · cases h
        exact ⟨Or.inr rfl, fun b hb => by cases hb; exact le_refl _⟩

theorem chooseBestStep_keeps {α γ : Type} {score : γ → ℚ} {f : α → Option γ}
    {init : Option γ} {a : α} {m ca : γ}
    (h : chooseBestStep score f init a = some m) (hfa : f a = some ca) :
    score m ≤ score ca := by
  unfold chooseBestStep at h
  split at h
  · rename_i hnone
    rw [hfa] at hnone; cases hnone
  · rename_i ca' hfa'
    rw [hfa] at hfa'
    obtain rfl : ca = ca' := by injection hfa'
    split at h
    · cases h; exact le_refl _
    · split at h
      · cases h; exact le_refl _
      · cases h; rename_i hlt; exact le_of_not_lt hlt

theorem chooseBest_aux {α γ : Type} (score : γ → ℚ) (f : α → Option γ) :
    ∀ (l : List α) (init : Option γ) (c : γ),
      (l.foldl (chooseBestStep score f) init) = some c →
      ((init = some c ∨ ∃ a ∈ l, f a = some c) ∧
        (∀ a ∈ l, ∀ c', f a = some c' → score c ≤ score c') ∧
        (∀ b, init = some b → score c ≤ score b))
  | [], init, c, h => by
    rw [List.foldl_nil] at h
    refine ⟨Or.inl h, by simp, ?_⟩
    intro b hb; rw [h] at hb; cases hb; exact le_refl _
  | a :: l, init, c, h => by
    rw [List.foldl_cons] at h
    have IH := chooseBest_aux score f l (chooseBestStep score f init a) c h
    have hmono : ∀ b, init = some b → score c ≤ score b := by
      intro b hb
      rcases hmid : chooseBestStep score f init a with _ | m
      · exfalso
        rw [hb] at hmid
        unfold chooseBestStep at hmid
        split at hmid
        · cases hmid
        · split at hmid
          · cases hmid
          · split at hmid <;> cases hmid
      · have hc_m := IH.2.2 m hmid
        rw [hb] at hmid
        exact le_trans hc_m ((chooseBestStep_le hmid).2 b rfl)
    refine ⟨?_, ?_, hmono⟩
    · rcases IH.1 with h1 | ⟨a', ha', hfa'⟩
      · rcases (chooseBestStep_le h1).1 with hfa | hinit
        · exact Or.inr ⟨a, List.mem_cons_self _ _, hfa⟩
        · exact Or.inl hinit
      · exact Or.inr ⟨a', List.mem_cons_of_mem _ ha', hfa'⟩
    · intro a' ha' c' hc'
      rcases List.mem_cons.mp ha' with rfl | ha'
      · rcases hmid : chooseBestStep score f init a' with _ | m
        · exfalso
          unfold chooseBestStep at hmid
          split at hmid
          · rename_i heq
            rw [hc'] at heq
            cases heq
          · split at hmid
            · cases hmid
            · split at hmid <;> cases hmid
        · exact le_trans (IH.2.2 m hmid) (chooseBestStep_keeps hmid hc')
      · exact IH.2.1 a' ha' c' hc'

theorem chooseBest_spec {α γ : Type} {score : γ → ℚ} {f : α → Option γ}
    {l : List α} {c : γ} (h : chooseBest score f l = some c) :
    (∃ a ∈ l, f a = some c) ∧
      ∀ a ∈ l, ∀ c', f a = some c' → score c ≤ score c' := by
  have := chooseBest_aux score f l none c h
  exact ⟨this.1.resolve_left (by simp), this.2.1⟩

theorem boundsP_normalize (K : GeoKernel P) (p : P) :
    K.boundsP (normalizePolygon K p) =
      ⟨0, 0, (K.boundsP p).maxX - (K.boundsP p).minX,
        (K.boundsP p).maxY - (K.boundsP p).minY⟩ := by
  rw [normalizePolygon, K.bounds_translate]
  congr 1 <;> ring

/-- Everything `find_best_position_with_rotation` guarantees about a
successful result: grid coordinates are nonnegative, the placed candidate
stays inside the sheet, the returned polygon is normalized to the origin,
and the placed candidate misses every occupied polygon buffered by the
spacing. -/
theorem findBestPositionWithRotation_spec {K : GeoKernel P}
    {sheetW sheetH spacing : ℚ} {part : NestPart P} {occupied : List P}
    {x y rot : ℚ} {rp : P}
    (h : findBestPositionWithRotation K sheetW sheetH spacing part occupied
      = some (x, y, rot, rp)) :
    0 ≤ x ∧ 0 ≤ y ∧
    (K.boundsP (K.translateP rp x y)).maxX ≤ sheetW ∧
    (K.boundsP (K.translateP rp x y)).maxY ≤ sheetH ∧
    (K.boundsP rp).minX = 0 ∧ (K.boundsP rp).minY = 0 ∧
    ∀ q ∈ occupied,
      K.intersectsP (K.translateP rp x y) (K.bufferP q spacing) = false := by
  obtain ⟨⟨angle, -, hcand⟩, -⟩ := chooseBest_spec h
  obtain ⟨-, hrp, w, hgt, hpos⟩ := rotationCandidate_spec hcand
  obtain ⟨hx, hy, hmaxX, hmaxY, hcol⟩ := findPositionForPolygon_spec hpos
  have hb : (K.boundsP rp).minX = 0 ∧ (K.boundsP rp).minY = 0 := by
    rw [hrp, boundsP_normalize]; exact ⟨rfl, rfl⟩
  exact ⟨hx, hy, hmaxX, hmaxY, hb.1, hb.2, hcol⟩

theorem separated_both {K : GeoKernel P} {spacing : ℚ} {a b : P}
    (hsp : 0 ≤ spacing)
    (h : K.intersectsP a (K.bufferP b spacing) = false) :
    Separated K spacing a b ∧ Separated K spacing b a := by
  have hd : spacing < K.distP a b := (K.intersects_buffer_dist a b spacing hsp).mp h
  have hd' : spacing < K.distP b a := by rw [K.dist_comm]; exact hd
  exact ⟨⟨h, hd⟩, ⟨(K.intersects_buffer_dist b a spacing hsp).mpr hd', hd'⟩⟩

theorem blfGo_pairwise (K : GeoKernel P) (sheetW sheetH : ℚ) {spacing : ℚ}
    (hsp : 0 ≤ spacing) :
    ∀ (parts : List (NestPart P)) (placed : List (Placed P))
      (remaining : List (NestPart P)) (occupied : List P),
      occupied = placed.map Placed.polygon →
      occupied.Pairwise (Separated K spacing) →
      ((bottomLeftFillGo K sheetW sheetH spacing parts placed remaining occupied).1.map
          Placed.polygon).Pairwise (Separated K spacing)
  | [], placed, remaining, occupied, hocc, hpw => by
    rw [bottomLeftFillGo]; rw [hocc] at hpw; exact hpw
  | part :: rest, placed, remaining, occupied, hocc, hpw => by
    rw [bottomLeftFillGo]
    rcases hbest : findBestPositionWithRotation K sheetW sheetH spacing part occupied
      with _ | ⟨x, y, rot, rp⟩
    · exact blfGo_pairwise K sheetW sheetH hsp rest placed (remaining ++ [part])
        occupied hocc hpw
    · have hspec := findBestPositionWithRotation_spec hbest
      refine blfGo_pairwise K sheetW sheetH hsp rest
        (placed ++ [⟨K.translateP rp x y, x, y, rot⟩])
        remaining (occupied ++ [K.translateP rp x y]) ?_ ?_
      · rw [List.map_append, hocc]; rfl
      · rw [List.pairwise_append]
        refine ⟨hpw, List.pairwise_singleton _ _, ?_⟩
        intro a ha b hb
        rw [List.mem_singleton] at hb
        subst hb
        exact (separated_both hsp (hspec.2.2.2.2.2.2 a ha)).2

theorem blfGo_withinSheet {K : GeoKernel P} {sheetW sheetH spacing : ℚ} :
    ∀ (parts : List (NestPart P)) (placed : List (Placed P))
      (remaining : List (NestPart P)) (occupied : List P),
      (∀ pl ∈ placed, WithinSheet K sheetW sheetH pl.polygon) →
      ∀ pl ∈ (bottomLeftFillGo K sheetW sheetH spacing parts placed remaining occupied).1,
        WithinSheet K sheetW sheetH pl.polygon
  | [], placed, remaining, occupied, hin => by
    rw [bottomLeftFillGo]; exact hin
  | part :: rest, placed, remaining, occupied, hin => by
    rw [bottomLeftFillGo]
    rcases hbest : findBestPositionWithRotation K sheetW sheetH spacing part occupied
      with _ | ⟨x, y, rot, rp⟩
    · exact blfGo_withinSheet rest placed (remaining ++ [part]) occupied hin
    · obtain ⟨hx, hy, hmaxX, hmaxY, hminX, hminY, -⟩ :=
        findBestPositionWithRotation_spec hbest
      refine blfGo_withinSheet rest _ remaining _ ?_
      intro pl hpl
      rcases List.mem_append.mp hpl with hpl | hpl
      · exact hin pl hpl
      · rw [List.mem_singleton] at hpl
        subst hpl
        refine ⟨?_, hmaxX, ?_, hmaxY⟩
        · rw [K.bounds_translate, hminX]; simpa using hx
        · rw [K.bounds_translate, hminY]; simpa using hy

theorem separated_get {K : GeoKernel P} {spacing : ℚ} {l : List P}
    (hsp : 0 ≤ spacing) (h : l.Pairwise (Separated K spacing))
    (i j : Fin l.length) (hne : (i : ℕ) ≠ (j : ℕ)) :
    Separated K spacing (l.get i) (l.get j) := by
  rcases lt_or_gt_of_ne hne with hlt | hgt
  · exact List.pairwise_iff_get.mp h i j hlt
  · have hji := List.pairwise_iff_get.mp h j i hgt
    exact (separated_both hsp hji.1).2

/-- C1: for any geometry kernel satisfying shapely's metric laws, any input
part list, sheet dimensions and spacing ≥ 0, every pair of distinct placed
collision polygons misses the other buffered outward by the full spacing,
and the distance between the two polygons is at least the spacing. -/
theorem nesting_parts_respect_spacing
    (P : Type) (K : GeoKernel P) (sheetW sheetH spacing : ℚ)
    (hsp : 0 ≤ spacing) (parts : List (NestPart P)) (i j : ℕ)
    (hi : i < ((bottomLeftFill K sheetW sheetH spacing parts).1.map Placed.polygon).length)
    (hj : j < ((bottomLeftFill K sheetW sheetH spacing parts).1.map Placed.polygon).length)
    (hne : i ≠ j) :
    K.intersectsP
        (((bottomLeftFill K sheetW sheetH spacing parts).1.map Placed.polygon).get ⟨i, hi⟩)
        (K.bufferP
          (((bottomLeftFill K sheetW sheetH spacing parts).1.map Placed.polygon).get ⟨j, hj⟩)
          spacing) = false ∧
    spacing ≤ K.distP
        (((bottomLeftFill K sheetW sheetH spacing parts).1.map Placed.polygon).get ⟨i, hi⟩)
        (((bottomLeftFill K sheetW sheetH spacing parts).1.map Placed.polygon).get ⟨j, hj⟩) := by
  have hpw := blfGo_pairwise K sheetW sheetH hsp parts [] [] [] rfl
    List.Pairwise.nil
  have hsep := separated_get hsp hpw ⟨i, hi⟩ ⟨j, hj⟩ hne
  exact ⟨hsep.1, le_of_lt hsep.2⟩

/-- C2: for any geometry kernel satisfying shapely's bounding-box law, every
polygon placed by the nesting engine has its bounding box fully inside
`[0, sheet_width] × [0, sheet_height]`. -/
theorem nesting_parts_within_sheet
    (P : Type) (K : GeoKernel P) (sheetW sheetH spacing : ℚ)
    (parts : List (NestPart P)) (pl : Placed P)
    (hpl : pl ∈ (bottomLeftFill K sheetW sheetH spacing parts).1) :
    0 ≤ (K.boundsP pl.polygon).minX ∧ (K.boundsP pl.polygon).maxX ≤ sheetW ∧
    0 ≤ (K.boundsP pl.polygon).minY ∧ (K.boundsP pl.polygon).maxY ≤ sheetH :=
  blfGo_withinSheet parts [] [] [] (by intro pl h; cases h) pl hpl

/-- C7 (amended): a successful result of `find_best_position_with_rotation`
is one of the four rotation candidates — each candidate being the first
valid scan-order grid position for its rotation — and its
`(x + width) * (y + height)` score is minimal among those candidates (not
among all valid grid positions). -/
theorem nesting_best_among_rotation_candidates
    (P : Type) (K : GeoKernel P) (sheetW sheetH spacing : ℚ)
    (part : NestPart P) (occupied : List P) (c : ℚ × ℚ × ℚ × P)
    (h : findBestPositionWithRotation K sheetW sheetH spacing part occupied = some c) :
    (∃ angle ∈ rotationAngles,
        rotationCandidate K sheetW sheetH spacing part occupied angle = some c) ∧
    ∀ angle ∈ rotationAngles, ∀ c',
      rotationCandidate K sheetW sheetH spacing part occupied angle = some c' →
      areaUsed K c ≤ areaUsed K c' :=
  chooseBest_spec h

/-- C7 counterexample: on a 20×20 sheet with spacing 0, a 10×10 part and an
occupied strip `[0,8]×[0,3]`, the engine returns position (9,0) with score
`(9+10)*(0+10) = 190`, although the grid pair (rotation 0, position (0,4))
is valid with the strictly smaller score `(0+10)*(4+10) = 140`: the engine
does not minimize over all valid grid pairs, only over each rotation's
first scan-order hit. -/
theorem nesting_best_not_grid_minimal_counterexample :
    findBestPositionWithRotation boxKernel 20 20 0 smallSquarePart [stripOcc]
      = some (9, 0, 0, ⟨0, 0, 10, 10⟩) ∧
    specValidPair boxKernel 20 20 0 smallSquarePart [stripOcc] 0 0 4 ∧
    areaUsed boxKernel (0, 4, 0, (⟨0, 0, 10, 10⟩ : Box)) <
      areaUsed boxKernel (9, 0, 0, (⟨0, 0, 10, 10⟩ : Box)) := by
  refine ⟨by decide, ⟨by decide, by decide⟩, by decide⟩

/-- Witness for C1: the spec's scenario of two identical 100×100 squares on
a 1000×500 sheet with 2 mm spacing — the two placed boxes miss each other's
2 mm buffer and sit at distance ≥ 2. -/
theorem nesting_parts_respect_spacing_witness :
    boxKernel.intersectsP
        (((bottomLeftFill boxKernel 1000 500 2 [squarePart, squarePart]).1.map
            Placed.polygon).getD 0 squareBox)
        (boxKernel.bufferP
          (((bottomLeftFill boxKernel 1000 500 2 [squarePart, squarePart]).1.map
              Placed.polygon).getD 1 squareBox) 2) = false ∧
    (2:ℚ) ≤ boxKernel.distP
        (((bottomLeftFill boxKernel 1000 500 2 [squarePart, squarePart]).1.map
            Placed.polygon).getD 0 squareBox)
        (((bottomLeftFill boxKernel 1000 500 2 [squarePart, squarePart]).1.map
            Placed.polygon).getD 1 squareBox) := by
  have hlen : ((bottomLeftFill boxKernel 1000 500 2 [squarePart, squarePart]).1.map
      Placed.polygon).length = 2 := by decide
  have h := nesting_parts_respect_spacing Box boxKernel 1000 500 2 (by norm_num)
    [squarePart, squarePart] 0 1 (by rw [hlen]; norm_num) (by rw [hlen]; norm_num)
    (by norm_num)
  rw [List.getD_eq_getElem _ squareBox (by rw [hlen]; norm_num),
    List.getD_eq_getElem _ squareBox (by rw [hlen]; norm_num)]
  simpa [List.get_eq_getElem] using h

/-- Witness for C2: the spec's scenario of a single 100×100 square on a
1000×500 sheet — it is placed at the origin with rotation 0 and its box is
inside the sheet. -/
theorem nesting_parts_within_sheet_witness :
    0 ≤ (boxKernel.boundsP (Placed.polygon (P := Box) ⟨squareBox, 0, 0, 0⟩)).minX ∧
    (boxKernel.boundsP (Placed.polygon (P := Box) ⟨squareBox, 0, 0, 0⟩)).maxX ≤ 1000 ∧
    0 ≤ (boxKernel.boundsP (Placed.polygon (P := Box) ⟨squareBox, 0, 0, 0⟩)).minY ∧
    (boxKernel.boundsP (Placed.polygon (P := Box) ⟨squareBox, 0, 0, 0⟩)).maxY ≤ 500 :=
  nesting_parts_within_sheet Box boxKernel 1000 500 2 [squarePart]
    ⟨squareBox, 0, 0, 0⟩ (by decide)

/-- Witness for C7's amended theorem, at the counterexample input. -/
theorem nesting_best_among_rotation_candidates_witness :
    (∃ angle ∈ rotationAngles,
        rotationCandidate boxKernel 20 20 0 smallSquarePart [stripOcc] angle
          = some (9, 0, 0, ⟨0, 0, 10, 10⟩)) ∧
    ∀ angle ∈ rotationAngles, ∀ c',
      rotationCandidate boxKernel 20 20 0 smallSquarePart [stripOcc] angle = some c' →
      areaUsed boxKernel (9, 0, 0, (⟨0, 0, 10, 10⟩ : Box)) ≤ areaUsed boxKernel c' :=
  nesting_best_among_rotation_candidates Box boxKernel 20 20 0 smallSquarePart
    [stripOcc] (9, 0, 0, ⟨0, 0, 10, 10⟩) (by decide)

theorem min_add_shift (T D cur : ℚ) (hD : 0 ≤ D) (i : ℚ) (hi : 0 ≤ i) :
    min (min (cur + D) T + (i + 1) * D) T = min (cur + (i + 1 + 1) * D) T := by
  rcases le_total (cur + D) T with hle | hge
  · rw [min_eq_left hle]; ring_nf
  · rw [min_eq_right hge]
    have h1 : T ≤ T + (i + 1) * D := by nlinarith
    have h2 : T ≤ cur + (i + 1 + 1) * D := by nlinarith
    rw [min_eq_right h1, min_eq_right h2]

theorem contourPassDepthsGo_closed (T D : ℚ) (hD : 0 < D) :
    ∀ (n : ℕ) (cur : ℚ), cur ≤ T →
      contourPassDepthsGo T D n cur =
        (List.range n).map (fun (i : ℕ) => min (cur + ((i : ℚ) + 1) * D) T)
  | 0, cur, _ => rfl
  | n + 1, cur, hcur => by
    rw [contourPassDepthsGo]
    have hstep : cur + min D (T - cur) = min (cur + D) T := by
      rcases le_total D (T - cur) with hle | hge
      · rw [min_eq_left hle, min_eq_left (by linarith)]
      · rw [min_eq_right hge, min_eq_right (by linarith)]; ring
    have hcur' : cur + min D (T - cur) ≤ T := by
      rw [hstep]; exact min_le_right _ _
    rw [contourPassDepthsGo_closed T D hD n (cur + min D (T - cur)) hcur']
    rw [List.range_succ_eq_map, List.map_cons, List.map_map]
    congr 1
    · rw [hstep]; norm_num
    · apply List.map_congr_left
      intro i _
      simp only [Function.comp_apply, hstep]
      have hmain := min_add_shift T D cur (le_of_lt hD) (i : ℚ)
        (by exact_mod_cast Nat.zero_le i)
      push_cast
      convert hmain using 3

theorem stepdownDepthsGo_closed (T D : ℚ) (hD : 0 < D) :
    ∀ (n : ℕ) (cur : ℚ), cur ≤ T → (∀ i : ℕ, i < n → cur + (i : ℚ) * D < T) →
      stepdownDepthsGo T D n cur =
        (List.range n).map (fun (i : ℕ) => min (cur + ((i : ℚ) + 1) * D) T)
  | 0, cur, _, _ => rfl
  | n + 1, cur, hcur, hrun => by
    rw [stepdownDepthsGo]
    have hlt : cur < T := by
      have := hrun 0 (Nat.succ_pos n); simpa using this
    rw [if_pos hlt]
    have hrun' : ∀ i : ℕ, i < n → min (cur + D) T + (i : ℚ) * D < T := by
      intro i hin
      have hnext := hrun (i + 1) (by omega)
      have hle : min (cur + D) T ≤ cur + D := min_le_left _ _
      push_cast at hnext
      nlinarith
    rw [stepdownDepthsGo_closed T D hD n (min (cur + D) T) (min_le_right _ _) hrun']
    rw [List.range_succ_eq_map, List.map_cons, List.map_map]
    congr 1
    · norm_num
    · apply List.map_congr_left
      intro i _
      simp only [Function.comp_apply]
      have hmain := min_add_shift T D cur (le_of_lt hD) (i : ℚ)
        (by exact_mod_cast Nat.zero_le i)
      push_cast
      convert hmain using 3

theorem numDepthPasses_cast (T D : ℚ) (hT : 0 < T) (hD : 0 < D) :
    T ≤ ((numDepthPasses T D : ℕ) : ℚ) * D ∧ 0 < numDepthPasses T D ∧
      ∀ i : ℕ, i < numDepthPasses T D → (i : ℚ) * D < T := by
  have hpos : 0 < T / D := div_pos hT hD
  have hle : T / D ≤ (⌈T / D⌉ : ℚ) := Int.le_ceil _
  have hceil_pos : 0 < ⌈T / D⌉ := Int.ceil_pos.mpr hpos
  have hcast : ((numDepthPasses T D : ℕ) : ℚ) = (⌈T / D⌉ : ℚ) := by
    rw [numDepthPasses, qceil_eq_ceil]
    exact_mod_cast congrArg Int.cast (Int.toNat_of_nonneg (le_of_lt hceil_pos))
  refine ⟨?_, ?_, ?_⟩
  · rw [hcast]
    have h1 : T / D * D ≤ (⌈T / D⌉ : ℚ) * D :=
      mul_le_mul_of_nonneg_right hle (le_of_lt hD)
    have h2 : T / D * D = T := by field_simp
    linarith
  · rw [numDepthPasses, qceil_eq_ceil]
    omega
  · intro i hi
    have hi' : (i : ℚ) < (⌈T / D⌉ : ℚ) := by
      rw [← hcast]; exact_mod_cast hi
    have hint : (i : ℤ) < ⌈T / D⌉ := by exact_mod_cast hi'
    have hint1 : (i : ℤ) ≤ ⌈T / D⌉ - 1 := by omega
    have hle1 : (i : ℚ) ≤ (⌈T / D⌉ : ℚ) - 1 := by exact_mod_cast hint1
    have hlt1 : (⌈T / D⌉ : ℚ) - 1 < T / D := by
      have := Int.ceil_lt_add_one (T / D)
      linarith
    have hfin : (i : ℚ) < T / D := lt_of_le_of_lt hle1 hlt1
    have h1 : (i : ℚ) * D < T / D * D := mul_lt_mul_of_pos_right hfin hD
    have h2 : T / D * D = T := by field_simp
    linarith

/-- C3: for material thickness `T > 0` and per-pass depth `D > 0`, the
number of depth passes generated by `ContouringOperation.generate_toolpath`
and `BoringOperation.generate_toolpath` equals `ceil(T / D)`, the final
pass's cumulative cutting depth is exactly `T` (never `D * ceil(T/D)`), every
pass depth is at most `T`, and the `while`-loop step-down of
`ToolpathGenerator._generate_contour_with_tabs` produces the same depths. -/
theorem toolpath_depth_passes (T D : ℚ) (hT : 0 < T) (hD : 0 < D) :
    (contourPassDepths T D).length = (qceil (T / D)).toNat ∧
    (contourPassDepths T D).getLast? = some T ∧
    stepdownDepths T D = contourPassDepths T D ∧
    ∀ d ∈ contourPassDepths T D, d ≤ T := by
  obtain ⟨hnD, hnpos, hrun⟩ := numDepthPasses_cast T D hT hD
  have hclosed : contourPassDepths T D =
      (List.range (numDepthPasses T D)).map
        (fun (i : ℕ) => min (((i : ℚ) + 1) * D) T) := by
    rw [contourPassDepths, contourPassDepthsGo_closed T D hD _ 0 (le_of_lt hT)]
    apply List.map_congr_left
    intro i _
    norm_num
  have hstep : stepdownDepths T D =
      (List.range (numDepthPasses T D)).map
        (fun (i : ℕ) => min (((i : ℚ) + 1) * D) T) := by
    rw [stepdownDepths, stepdownDepthsGo_closed T D hD _ 0 (le_of_lt hT)
      (by intro i hi; simpa using hrun i hi)]
    apply List.map_congr_left
    intro i _
    norm_num
  refine ⟨?_, ?_, ?_, ?_⟩
  · rw [hclosed, List.length_map, List.length_range]; rfl
  · rw [hclosed]
    obtain ⟨m, hm⟩ : ∃ m, numDepthPasses T D = m + 1 :=
      ⟨numDepthPasses T D - 1, by omega⟩
    rw [hm, List.range_succ, List.map_append, List.map_singleton]
    rw [List.getLast?_concat]
    have hmn : ((m : ℚ) + 1) * D = ((numDepthPasses T D : ℕ) : ℚ) * D := by
      rw [hm]; push_cast; ring
    rw [min_eq_right (by rw [hmn]; exact hnD)]
  · rw [hclosed, hstep]
  · rw [hclosed]
    intro d hd
    simp only [List.mem_map, List.mem_range] at hd
    obtain ⟨i, -, rfl⟩ := hd
    exact min_le_right _ _

/-- Witness for C3: thickness 10, per-pass depth 3 gives passes
`[3, 6, 9, 10]` — 4 = ceil(10/3) passes and a final depth of exactly 10. -/
theorem toolpath_depth_passes_witness :
    (0:ℚ) < 10 ∧ (0:ℚ) < 3 ∧
    (contourPassDepths 10 3).length = (qceil ((10:ℚ) / 3)).toNat ∧
    (contourPassDepths 10 3).getLast? = some 10 ∧
    stepdownDepths 10 3 = contourPassDepths 10 3 ∧
    ∀ d ∈ contourPassDepths 10 3, d ≤ 10 := by
  have h := toolpath_depth_passes 10 3 (by norm_num) (by norm_num)
  exact ⟨by norm_num, by norm_num, h.1, h.2.1, h.2.2.1, h.2.2.2⟩

/-! ### C4 -/

/-- C4 counterexample: a hole of bounding-box radius 1 with a 6 mm tool
(tool radius 3) makes `ToolpathGenerator._generate_hole_toolpath` silently
emit a straight drilling cycle plunging to full material depth — no error
is raised and the hole is effectively clamped to the tool size. -/
theorem drill_emitted_for_small_hole_counterexample :
    holeRadiusOf holeContour < cexCfg.tool.diameter / 2 ∧
    (generateHoleToolpath mfZero cexCfg holeContour).ttype = "drill" ∧
    (generateHoleToolpath mfZero cexCfg holeContour).points =
      [(5, 5, 5), (5, 5, -3), (5, 5, 5)] := by
  refine ⟨by decide, by decide, by decide⟩

/-- C4 (amended): `BoringOperation.generate_toolpath` raises a hard error
for a hole strictly smaller than the tool radius and never clamps, but
`ToolpathGenerator._generate_hole_toolpath` instead silently emits a
drilling toolpath for every hole of bounding-box radius at most the tool
radius, including strictly smaller ones. -/
theorem hole_smaller_than_tool_error
    (mf : MathFns) (st : BoringSettings) (center : ℚ × ℚ)
    (holeRadius materialThickness : ℚ) (cfg : CuttingCfg) (hole : List Geometry)
    (hb : holeRadius < st.tool_diameter / 2)
    (ht : holeRadiusOf hole ≤ cfg.tool.diameter / 2) :
    boringGenerateToolpath mf st center holeRadius materialThickness =
      Except.error (boringHoleError st holeRadius) ∧
    (generateHoleToolpath mf cfg hole).ttype = "drill" := by
  constructor
  · rw [boringGenerateToolpath]
    simp only [if_pos hb]
  · rw [generateHoleToolpath]
    rw [holeRadiusOf] at ht
    simp only [if_pos ht]

/-- Witness for C4's amended theorem: radius-1 hole, 6 mm tool. -/
theorem hole_smaller_than_tool_error_witness :
    (boringGenerateToolpath mfZero cexBoring (0, 0) 1 12 =
      Except.error (boringHoleError cexBoring 1)) ∧
    (generateHoleToolpath mfZero cexCfg holeContour).ttype = "drill" :=
  hole_smaller_than_tool_error mfZero cexBoring (0, 0) 1 12 cexCfg holeContour
    (by decide) (by decide)

/-! ### C6 -/

/-- C6 counterexample: two runs differing only in the wall clock produce
different G-code — the `(Generated: …)` header line embeds
`datetime.now()`. -/
theorem gcode_embeds_wall_clock_counterexample :
    m3GenerateGcode "plywood" 6 [] 24000 "NESTED_PARTS" "2026-01-01 00:00:00" ≠
      m3GenerateGcode "plywood" 6 [] 24000 "NESTED_PARTS" "2026-01-01 00:00:01" := by
  decide

/-- C6 (amended): nesting and toolpath generation are pure functions of
their inputs, and the G-code of two runs on identical inputs is identical
except for line index 1, the `(Generated: …)` header comment, which embeds
the run's wall-clock time. -/
theorem gcode_deterministic_except_timestamp
    (materialName : String) (toolDiameter : ℚ) (toolpaths : List M3Move)
    (spindleSpeed : ℕ) (programName now1 now2 : String) :
    (m3GcodeLines materialName toolDiameter toolpaths spindleSpeed programName
        now1).eraseIdx 1 =
      (m3GcodeLines materialName toolDiameter toolpaths spindleSpeed programName
        now2).eraseIdx 1 ∧
    (m3GcodeLines materialName toolDiameter toolpaths spindleSpeed programName
        now1).get? 1 = some ("(Generated: " ++ now1 ++ ")") := by
  constructor
  · simp [m3GcodeLines, m3Header, List.eraseIdx]
  · simp [m3GcodeLines, m3Header]

/-! ### C8 -/

theorem optimizeToolpathOrder_head (mf : MathFns) (t : Toolpath)
    (rest : List Toolpath) :
    (optimizeToolpathOrder mf (t :: rest)).head? = some t := by
  cases rest <;> rfl

/-- C8 (amended): `generate_toolpaths` appends each part's outer-contour
toolpath BEFORE its hole toolpaths, and the nearest-neighbour reordering
keeps the overall first toolpath — the first part's outer contour — first;
so the first part's holes always come after its contour, the reverse of
the claimed order. -/
theorem toolpaths_contour_first (mf : MathFns) (cfg : CuttingCfg)
    (p : TPart) (ps : List TPart) :
    (generateToolpaths mf cfg (p :: ps)).head? =
      some (generateContourWithTabs mf cfg p) := by
  rw [generateToolpaths, List.flatMap_cons, List.cons_append]
  exact optimizeToolpathOrder_head mf _ _

/-- C8 counterexample: a single part with one hole yields the toolpath
sequence `[contour, drill]` — the hole's toolpath comes after the outer
contour, not before it. -/
theorem toolpaths_hole_after_contour_counterexample :
    (generateToolpaths mfZero cexCfg [cexTPart]).map Toolpath.ttype =
      ["contour", "drill"] := by decide

/-! ### C5 -/

theorem pyTrunc_eq_qfloor {q : ℚ} (h : 0 ≤ q) : pyTrunc q = qfloor q := by
  rw [pyTrunc, qfloor]
  exact Int.tdiv_eq_ediv (Rat.num_nonneg.mpr h) (by positivity)

theorem selectTabPositions_length (totalLength : ℚ) (cands : List ℚ) (numTabs : ℕ) :
    ∀ (fuel : ℕ) (selected : List ℚ),
      (selectTabPositions totalLength cands numTabs fuel selected).length ≤
        max selected.length numTabs
  | 0, selected => le_max_left _ _
  | fuel + 1, selected => by
    rw [selectTabPositions]
    split
    · rename_i hlen
      rcases h : bestTabPos totalLength cands selected with _ | p
      · exact le_max_left _ _
      · have IH := selectTabPositions_length totalLength cands numTabs fuel
          (selected ++ [p])
        refine le_trans IH ?_
        simp only [List.length_append, List.length_singleton]
        exact max_le (le_trans (by omega) (le_max_right _ _)) (le_max_right _ _)
    · exact le_max_left _ _

theorem calcTabPositions_length_le (mf : MathFns) (cfg : CuttingCfg)
    (contour : List Geometry) (totalLength : ℚ)
    (hmin : 0 < cfg.tabs.min_tabs_per_part) :
    (calcTabPositions mf cfg contour totalLength).length ≤
      tpgNumTabs cfg totalLength := by
  simp only [calcTabPositions]
  split
  · simp
  · refine le_trans (List.length_filterMap_le _ _) ?_
    split
    · split
      · simp
      · refine le_trans (selectTabPositions_length totalLength _ _ _ _) ?_
        have h1 : (1:ℕ) ≤ tpgNumTabs cfg totalLength :=
          le_trans hmin (le_max_left _ _)
        exact max_le (by simpa using h1) (le_refl _)
    · rw [List.length_map, List.length_range]

/-- C5 (amended): with tabs enabled, `_calculate_tab_positions` targets
`max(min_tabs, int(L/S))` tabs (Python `int()` truncates) and generates at
most that many; `TabGenerator.generate_tabs` targets
`max(min_tabs, int(L/S) + 1)`; the spec's `max(min_tabs, ceil(L/S))` is
sandwiched between the two code formulas and equals neither in general. -/
theorem tab_count_formulas (mf : MathFns) (cfg : CuttingCfg)
    (contour : List Geometry) (totalLength : ℚ)
    (hmin : 0 < cfg.tabs.min_tabs_per_part)
    (hS : 0 < cfg.tabs.spacing) (hL : 0 ≤ totalLength) :
    (calcTabPositions mf cfg contour totalLength).length ≤
      tpgNumTabs cfg totalLength ∧
    tpgNumTabs cfg totalLength ≤
      specNumTabs cfg.tabs.min_tabs_per_part totalLength cfg.tabs.spacing ∧
    specNumTabs cfg.tabs.min_tabs_per_part totalLength cfg.tabs.spacing ≤
      tabGenNumTabs cfg.tabs.min_tabs_per_part totalLength cfg.tabs.spacing := by
  have hx : (0:ℚ) ≤ totalLength / cfg.tabs.spacing := by positivity
  have htr : pyTrunc (totalLength / cfg.tabs.spacing) =
      ⌊totalLength / cfg.tabs.spacing⌋ := by
    rw [pyTrunc_eq_qfloor hx, qfloor_eq_floor]
  have hce : qceil (totalLength / cfg.tabs.spacing) =
      ⌈totalLength / cfg.tabs.spacing⌉ := qceil_eq_ceil _
  refine ⟨calcTabPositions_length_le mf cfg contour totalLength hmin, ?_, ?_⟩
  · rw [tpgNumTabs, specNumTabs, htr, hce]
    refine max_le (le_max_left _ _) (le_trans ?_ (le_max_right _ _))
    exact Int.toNat_le_toNat (Int.floor_le_ceil _)
  · rw [specNumTabs, tabGenNumTabs, htr, hce]
    refine max_le (le_max_left _ _) (le_trans ?_ (le_max_right _ _))
    have h1 := Int.ceil_le_floor_add_one (totalLength / cfg.tabs.spacing)
    have h2 : (0:ℤ) ≤ ⌊totalLength / cfg.tabs.spacing⌋ := Int.floor_nonneg.mpr hx
    omega

/-- Witness for C5's amended theorem at the counterexample input
(min_tabs 1, spacing 10, perimeter 25). -/
theorem tab_count_formulas_witness :
    (calcTabPositions mfZero tabCfg25 squareContour 25).length ≤
      tpgNumTabs tabCfg25 25 ∧
    tpgNumTabs tabCfg25 25 ≤
      specNumTabs tabCfg25.tabs.min_tabs_per_part 25 tabCfg25.tabs.spacing ∧
    specNumTabs tabCfg25.tabs.min_tabs_per_part 25 tabCfg25.tabs.spacing ≤
      tabGenNumTabs tabCfg25.tabs.min_tabs_per_part 25 tabCfg25.tabs.spacing :=
  tab_count_formulas mfZero tabCfg25 squareContour 25 (by decide) (by decide)
    (by decide)

/-- C5 counterexample: with minimum 1 tab, spacing 10 and perimeter 25, the
spec's formula demands `max(1, ceil(2.5)) = 3` tabs but
`_calculate_tab_positions` targets `max(1, int(2.5)) = 2` and generates
fewer than 3. -/
theorem tab_count_not_ceil_counterexample :
    (calcTabPositions mfZero tabCfg25 squareContour 25).length ≠
      specNumTabs tabCfg25.tabs.min_tabs_per_part 25 tabCfg25.tabs.spacing := by
  decide

/-! ### C9 -/

theorem foldl_erase_sdiff (p : ℕ → Prop) [DecidablePred p] :
    ∀ (l : List ℕ) (U : Finset ℕ),
      l.foldl (fun u i => if p i then u.erase i else u) U =
        U \ (l.filter (fun i => decide (p i))).toFinset
  | [], U => by simp
  | i :: l, U => by
    rw [List.foldl_cons, foldl_erase_sdiff p l]
    by_cases hp : p i
    · rw [if_pos hp, List.filter_cons_of_pos (by simpa using hp)]
      ext a
      simp only [Finset.mem_sdiff, Finset.mem_erase, List.toFinset_cons,
        Finset.mem_insert, List.mem_toFinset]
      tauto
    · rw [if_neg hp, List.filter_cons_of_neg (by simpa using hp)]

theorem range_filter_getD_eq {segMap : List Seg} (hnd : segMap.Nodup)
    {i₀ : ℕ} (hi₀ : i₀ < segMap.length) :
    ((List.range segMap.length).filter
        (fun j => decide (segMap.getD j default = segMap.getD i₀ default))).toFinset
      = {i₀} := by
  ext j
  simp only [List.mem_toFinset, List.mem_filter, List.mem_range,
    decide_eq_true_eq, Finset.mem_singleton]
  constructor
  · rintro ⟨hj, heq⟩
    rw [List.getD_eq_getElem _ _ hj, List.getD_eq_getElem _ _ hi₀] at heq
    have h2 : segMap.get ⟨j, hj⟩ = segMap.get ⟨i₀, hi₀⟩ := by
      simpa [List.get_eq_getElem] using heq
    have h3 := (List.Nodup.get_inj_iff hnd).mp h2
    exact congrArg Fin.val h3
  · rintro rfl
    exact ⟨hi₀, rfl⟩

theorem restoreUsed_exact {segMap : List Seg} (hnd : segMap.Nodup) :
    ∀ (idxs : List ℕ) (used₀ : Finset ℕ),
      (∀ i ∈ idxs, i < segMap.length) → idxs.Nodup →
      (∀ i ∈ idxs, i ∉ used₀) →
      restoreUsed segMap (idxs.map (fun i => segMap.getD i default))
        (used₀ ∪ idxs.toFinset) = used₀
  | [], used₀, _, _, _ => by simp [restoreUsed]
  | i :: idxs, used₀, hlt, hndi, hdisj => by
    rw [List.map_cons, restoreUsed, List.foldl_cons]
    have hinner : (List.range segMap.length).foldl
        (fun u2 j => if segMap.getD j default = segMap.getD i default
          then u2.erase j else u2)
        (used₀ ∪ (i :: idxs).toFinset)
        = used₀ ∪ idxs.toFinset := by
      rw [foldl_erase_sdiff (fun j => segMap.getD j default = segMap.getD i default)]
      rw [range_filter_getD_eq hnd (hlt i (List.mem_cons_self _ _))]
      ext a
      simp only [Finset.mem_sdiff, Finset.mem_union, List.toFinset_cons,
        Finset.mem_insert, List.mem_toFinset, Finset.mem_singleton]
      constructor
      · rintro ⟨ha | ⟨rfl | ha⟩, hne⟩
        · exact Or.inl ha
        · exact absurd rfl hne
        · exact Or.inr ha
      · rintro (ha | ha)
        · exact ⟨Or.inl ha, fun hae => hdisj i (List.mem_cons_self _ _) (hae ▸ ha)⟩
        · refine ⟨Or.inr (Or.inr ha), fun hae => ?_⟩
          exact (List.nodup_cons.mp hndi).1 (hae ▸ ha)
    have hrest := restoreUsed_exact hnd idxs used₀
      (fun j hj => hlt j (List.mem_cons_of_mem _ hj))
      (List.nodup_cons.mp hndi).2
      (fun j hj => hdisj j (List.mem_cons_of_mem _ hj))
    rw [restoreUsed] at hrest
    rw [hinner]
    exact hrest

theorem connLookup_valid {segMap : List Seg} {conns : Connections}
    (hvalid : ∀ e ∈ conns, ∀ pr ∈ e.2, pr.2 < segMap.length)
    {pt : ℚ × ℚ} {pr : (ℚ × ℚ) × ℕ} (hpr : pr ∈ connLookup conns pt) :
    pr.2 < segMap.length := by
  rw [connLookup] at hpr
  rcases hfind : List.find? (fun e => decide (e.1 = pt)) conns with _ | e
  · rw [hfind] at hpr; cases hpr
  · rw [hfind] at hpr
    exact hvalid e (List.mem_of_find?_eq_some hfind) pr hpr

theorem traceContourGo_spec (mf : MathFns) (segMap : List Seg)
    (conns : Connections) (startPoint : ℚ × ℚ) (hnd : segMap.Nodup)
    (hvalid : ∀ e ∈ conns, ∀ pr ∈ e.2, pr.2 < segMap.length) :
    ∀ (fuel : ℕ) (cur : ℚ × ℚ) (pathPoints : List (ℚ × ℚ)) (idxs : List ℕ)
      (used₀ : Finset ℕ),
      idxs.Nodup → (∀ i ∈ idxs, i < segMap.length) → (∀ i ∈ idxs, i ∉ used₀) →
      ((traceContourGo mf segMap conns startPoint fuel cur pathPoints
          (idxs.map (fun i => segMap.getD i default))
          (used₀ ∪ idxs.toFinset)).1 = none →
        (traceContourGo mf segMap conns startPoint fuel cur pathPoints
          (idxs.map (fun i => segMap.getD i default))
          (used₀ ∪ idxs.toFinset)).2 = used₀) ∧
      (∀ res,
        (traceContourGo mf segMap conns startPoint fuel cur pathPoints
          (idxs.map (fun i => segMap.getD i default))
          (used₀ ∪ idxs.toFinset)).1 = some res →
        res.segments.length ≤ idxs.length + fuel)
  | 0, cur, pathPoints, idxs, used₀, hndi, hlt, hdisj => by
    rw [traceContourGo]
    exact ⟨fun _ => restoreUsed_exact hnd idxs used₀ hlt hndi hdisj,
      fun res hres => Option.noConfusion hres⟩
  | fuel + 1, cur, pathPoints, idxs, used₀, hndi, hlt, hdisj => by
    rw [traceContourGo]
    rcases hfind : (connLookup conns (roundPoint cur)).find?
        (fun pr => decide (pr.2 ∉ used₀ ∪ idxs.toFinset)) with _ | pr
    · rw [hfind]
      dsimp only
      split
      · refine ⟨fun h => Option.noConfusion h, fun res hres => ?_⟩
        cases Option.some.inj hres
        simp only [List.length_map]
        omega
      · exact ⟨fun _ => restoreUsed_exact hnd idxs used₀ hlt hndi hdisj,
          fun res hres => Option.noConfusion hres⟩
    · rw [hfind]
      dsimp only
      have hnotused : pr.2 ∉ used₀ ∪ idxs.toFinset := by
        have := List.find?_some hfind
        simpa using this
      have hprmem : pr ∈ connLookup conns (roundPoint cur) :=
        List.mem_of_find?_eq_some hfind
      have hprlt : pr.2 < segMap.length := connLookup_valid hvalid hprmem
      have hnotidx : pr.2 ∉ idxs := fun hmem =>
        hnotused (Finset.mem_union_right _ (List.mem_toFinset.mpr hmem))
      have hnotu0 : pr.2 ∉ used₀ := fun hmem =>
        hnotused (Finset.mem_union_left _ hmem)
      have hmapext : idxs.map (fun i => segMap.getD i default) ++
          [segMap.getD pr.2 default] =
          (idxs ++ [pr.2]).map (fun i => segMap.getD i default) := by
        rw [List.map_append, List.map_singleton]
      have hsetext : insert pr.2 (used₀ ∪ idxs.toFinset) =
          used₀ ∪ (idxs ++ [pr.2]).toFinset := by
        ext a
        simp only [Finset.mem_insert, Finset.mem_union, List.mem_toFinset,
          List.mem_append, List.mem_singleton]
        tauto
      have hndi' : (idxs ++ [pr.2]).Nodup := by
        rw [List.nodup_append]
        exact ⟨hndi, List.nodup_singleton _, by simpa using hnotidx⟩
      have hlt' : ∀ i ∈ idxs ++ [pr.2], i < segMap.length := by
        intro i hi
        rcases List.mem_append.mp hi with hi | hi
        · exact hlt i hi
        · rw [List.mem_singleton] at hi; subst hi; exact hprlt
      have hdisj' : ∀ i ∈ idxs ++ [pr.2], i ∉ used₀ := by
        intro i hi
        rcases List.mem_append.mp hi with hi | hi
        · exact hdisj i hi
        · rw [List.mem_singleton] at hi; subst hi; exact hnotu0
      split
      · refine ⟨fun h => Option.noConfusion h, fun res hres => ?_⟩
        cases Option.some.inj hres
        simp only [List.length_append, List.length_map, List.length_singleton]
        omega
      · have IH := traceContourGo_spec mf segMap conns startPoint hnd hvalid
          fuel (traceStepUpdate mf cur pathPoints (segMap.getD pr.2 default)).2
          (traceStepUpdate mf cur pathPoints (segMap.getD pr.2 default)).1
          (idxs ++ [pr.2]) used₀ hndi' hlt' hdisj'
        rw [← hmapext, ← hsetext] at IH
        refine ⟨IH.1, fun res hres => ?_⟩
        have := IH.2 res hres
        simp only [List.length_append, List.length_singleton] at this
        omega

/-- C9: `_trace_contour` terminates by construction (its `while` guard is
the recursion fuel, at most 200 iterations each consuming at most one
segment, so a traced contour has at most 200 segments), and a failed trace
returns every consumed segment to the unused pool: the used-segment set is
exactly what it was before the trace.  The `Nodup` hypothesis reflects that
segment dicts hold distinct ezdxf entity objects, so Python's `==` in the
restore loop matches exactly the consumed segment. -/
theorem trace_contour_bounded_and_restores (mf : MathFns) (segMap : List Seg)
    (conns : Connections) (startPoint : ℚ × ℚ) (used : Finset ℕ)
    (hnd : segMap.Nodup)
    (hvalid : ∀ e ∈ conns, ∀ pr ∈ e.2, pr.2 < segMap.length) :
    ((traceContour mf segMap conns startPoint used).1 = none →
      (traceContour mf segMap conns startPoint used).2 = used) ∧
    ∀ res, (traceContour mf segMap conns startPoint used).1 = some res →
      res.segments.length ≤ 200 := by
  have h := traceContourGo_spec mf segMap conns startPoint hnd hvalid
    200 startPoint [] [] used (by simp) (by simp) (by simp)
  simpa [traceContour] using h

/-- Witness for C9: the failing single-segment trace leaves the used set
empty, exactly as before the trace. -/
theorem trace_contour_bounded_and_restores_witness :
    (traceContour mfZero traceSegMap traceConns (0, 0) ∅).1 = none ∧
    (traceContour mfZero traceSegMap traceConns (0, 0) ∅).2 = ∅ :=
  ⟨by decide,
    (trace_contour_bounded_and_restores mfZero traceSegMap traceConns (0, 0) ∅
      (by decide) (by decide)).1 (by decide)⟩

/-! ### C10 -/

theorem addHoleToPart_no_match {G : Type} [DecidableEq G] {parent hole : G} :
    ∀ {parts : List (ClsPart G)}, (∀ p ∈ parts, p.geom ≠ parent) →
      addHoleToPart parent hole parts = parts
  | [], _ => rfl
  | p :: rest, h => by
    rw [addHoleToPart, if_neg (h p (List.mem_cons_self _ _))]
    rw [addHoleToPart_no_match (fun q hq => h q (List.mem_cons_of_mem _ hq))]

theorem addHoleToPart_geoms {G : Type} [DecidableEq G] {parent hole : G} :
    ∀ {parts : List (ClsPart G)} {pt : ClsPart G}, pt ∈ parts →
      ∃ pt' ∈ addHoleToPart parent hole parts, pt'.geom = pt.geom
  | [], pt, h => absurd h (List.not_mem_nil _)
  | p :: rest, pt, h => by
    rw [addHoleToPart]
    split
    · rcases List.mem_cons.mp h with rfl | h
      · exact ⟨_, List.mem_cons_self _ _, rfl⟩
      · exact ⟨pt, List.mem_cons_of_mem _ h, rfl⟩
    · rcases List.mem_cons.mp h with rfl | h
      · exact ⟨pt, List.mem_cons_self _ _, rfl⟩
      · obtain ⟨pt', hpt', hgeom⟩ := addHoleToPart_geoms h
        exact ⟨pt', List.mem_cons_of_mem _ hpt', hgeom⟩

theorem classifyStep_geoms {G : Type} [DecidableEq G] (contains : G → G → Bool)
    (processed : List G) {parts : List (ClsPart G)} (pd : PolyData G)
    {pt : ClsPart G} (h : pt ∈ parts) :
    ∃ pt' ∈ classifyStep contains processed parts pd, pt'.geom = pt.geom := by
  rw [classifyStep]
  rcases hf : processed.find? (fun g => contains g pd.geom) with _ | parent
  · exact ⟨pt, List.mem_append_left _ h, rfl⟩
  · exact addHoleToPart_geoms h

theorem classifyGo_geoms {G : Type} [DecidableEq G] (contains : G → G → Bool) :
    ∀ (rest : List (PolyData G)) (processed : List G) {parts : List (ClsPart G)}
      {pt : ClsPart G}, pt ∈ parts →
      ∃ pt' ∈ classifySortedGo contains rest processed parts, pt'.geom = pt.geom
  | [], processed, parts, pt, h => ⟨pt, h, rfl⟩
  | pd :: rest, processed, parts, pt, h => by
    rw [classifySortedGo]
    obtain ⟨pt', hpt', hgeom⟩ := classifyStep_geoms contains processed pd h
    obtain ⟨pt'', hpt'', hgeom'⟩ := classifyGo_geoms contains rest
      (processed ++ [pd.geom]) hpt'
    exact ⟨pt'', hpt'', hgeom'.trans hgeom⟩

theorem addHoleToPart_inv {G : Type} [DecidableEq G] {parent hole g : G}
    (hhole : hole ≠ g) :
    ∀ {parts : List (ClsPart G)},
      (∀ pt ∈ parts, pt.geom ≠ g ∧ g ∉ pt.holes) →
      ∀ pt ∈ addHoleToPart parent hole parts, pt.geom ≠ g ∧ g ∉ pt.holes
  | [], _, pt, h => absurd h (List.not_mem_nil _)
  | p :: rest, hinv, pt, h => by
    rw [addHoleToPart] at h
    split at h
    · rcases List.mem_cons.mp h with rfl | h
      · refine ⟨(hinv p (List.mem_cons_self _ _)).1, ?_⟩
        intro hg
        rcases List.mem_append.mp hg with hg | hg
        · exact (hinv p (List.mem_cons_self _ _)).2 hg
        · rw [List.mem_singleton] at hg
          exact hhole hg.symm
      · exact hinv pt (List.mem_cons_of_mem _ h)
    · rcases List.mem_cons.mp h with rfl | h
      · exact hinv pt (List.mem_cons_self _ _)
      · exact addHoleToPart_inv hhole
          (fun q hq => hinv q (List.mem_cons_of_mem _ hq)) pt h

theorem classifyStep_inv {G : Type} [DecidableEq G] {contains : G → G → Bool}
    {processed : List G} {parts : List (ClsPart G)} {pd : PolyData G} {g : G}
    (hpd : pd.geom ≠ g)
    (hinv : ∀ pt ∈ parts, pt.geom ≠ g ∧ g ∉ pt.holes) :
    ∀ pt ∈ classifyStep contains processed parts pd,
      pt.geom ≠ g ∧ g ∉ pt.holes := by
  rw [classifyStep]
  rcases hf : processed.find? (fun gp => contains gp pd.geom) with _ | parent
  · intro pt h
    rcases List.mem_append.mp h with h | h
    · exact hinv pt h
    · rw [List.mem_singleton] at h
      subst h
      exact ⟨hpd, List.not_mem_nil _⟩
  · exact addHoleToPart_inv hpd hinv

theorem classifyGo_inv {G : Type} [DecidableEq G] {contains : G → G → Bool} {g : G} :
    ∀ {rest : List (PolyData G)} {processed : List G} {parts : List (ClsPart G)},
      (∀ pd ∈ rest, pd.geom ≠ g) →
      (∀ pt ∈ parts, pt.geom ≠ g ∧ g ∉ pt.holes) →
      ∀ pt ∈ classifySortedGo contains rest processed parts,
        pt.geom ≠ g ∧ g ∉ pt.holes
  | [], processed, parts, _, hinv => hinv
  | pd :: rest, processed, parts, hrest, hinv => by
    rw [classifySortedGo]
    exact classifyGo_inv (fun q hq => hrest q (List.mem_cons_of_mem _ hq))
      (classifyStep_inv (hrest pd (List.mem_cons_self _ _)) hinv)

theorem classifyGo_append {G : Type} [DecidableEq G] (contains : G → G → Bool) :
    ∀ (l₁ l₂ : List (PolyData G)) (processed : List G) (parts : List (ClsPart G)),
      classifySortedGo contains (l₁ ++ l₂) processed parts =
        classifySortedGo contains l₂ (processed ++ l₁.map PolyData.geom)
          (classifySortedGo contains l₁ processed parts)
  | [], l₂, processed, parts => by simp [classifySortedGo]
  | pd :: l₁, l₂, processed, parts => by
    rw [List.cons_append, classifySortedGo, classifySortedGo,
      classifyGo_append contains l₁ l₂]
    rw [List.map_cons, List.append_assoc]
    rfl

/-- C10: a contour contained in some earlier (larger) polygon but in no
polygon that ends up classified as a part is silently dropped: it appears
neither as a part nor in any part's holes list.  (Its first container is
then not a part, so the parent lookup finds nothing and the hole is
attached nowhere.) -/
theorem classify_drops_orphan_hole {G : Type} [DecidableEq G]
    (contains : G → G → Bool) (L₁ L₂ : List (PolyData G)) (pd : PolyData G)
    (hcontained : ∃ gp ∈ L₁.map PolyData.geom, contains gp pd.geom = true)
    (hnopart : ∀ pt ∈ classifySorted contains (L₁ ++ pd :: L₂),
        contains pt.geom pd.geom = false)
    (hunique : ∀ pd' ∈ L₁ ++ L₂, pd'.geom ≠ pd.geom) :
    ∀ pt ∈ classifySorted contains (L₁ ++ pd :: L₂),
      pt.geom ≠ pd.geom ∧ pd.geom ∉ pt.holes := by
  rw [classifySorted, classifyGo_append] at hnopart ⊢
  rw [classifySortedGo] at hnopart ⊢
  obtain ⟨gp, hgp_mem, hgp⟩ := hcontained
  rcases hf : (List.nil ++ L₁.map PolyData.geom).find?
      (fun g => contains g pd.geom) with _ | parent
  · exact absurd hgp (by
      have h1 := List.find?_eq_none.mp hf gp (by simpa using hgp_mem)
      simpa using h1)
  · have hparent : contains parent pd.geom = true := by
      have h1 := List.find?_some hf
      simpa using h1
    have hnomatch : ∀ p ∈ classifySortedGo contains L₁ [] [], p.geom ≠ parent := by
      intro p hp hpe
      obtain ⟨q, hq, hqg⟩ := classifyStep_geoms contains
        (List.nil ++ L₁.map PolyData.geom) pd hp
      obtain ⟨q', hq', hqg'⟩ := classifyGo_geoms contains L₂
        ((List.nil ++ L₁.map PolyData.geom) ++ [pd.geom]) hq
      have hfalse := hnopart q' hq'
      rw [hqg'.trans (hqg.trans hpe), hparent] at hfalse
      cases hfalse
    have hstep : classifyStep contains (List.nil ++ L₁.map PolyData.geom)
        (classifySortedGo contains L₁ [] []) pd =
        classifySortedGo contains L₁ [] [] := by
      rw [classifyStep, hf]
      exact addHoleToPart_no_match hnomatch
    rw [hstep]
    refine classifyGo_inv (fun q hq => hunique q (List.mem_append_right _ hq)) ?_
    exact classifyGo_inv (fun q hq => hunique q (List.mem_append_left _ hq))
      (fun pt hpt => absurd hpt (List.not_mem_nil _))

/-- C10 witness: in the drawing part 0 ⊃ hole 1 ⊃ contour 2, the classifier
output is the single part 0 with hole 1, and contour 2 is recorded nowhere. -/
theorem classify_drops_orphan_hole_witness :
    (⟨0, [1], 100⟩ : ClsPart ℕ).geom ≠ (⟨2, 10⟩ : PolyData ℕ).geom ∧
      (⟨2, 10⟩ : PolyData ℕ).geom ∉ (⟨0, [1], 100⟩ : ClsPart ℕ).holes :=
  classify_drops_orphan_hole natContains [⟨0, 100⟩, ⟨1, 50⟩] [] ⟨2, 10⟩
    (by decide) (by decide) (by decide) ⟨0, [1], 100⟩ (by decide)

end Monorepo

